import Mathlib

/-!
# MiniMoonBit RISC-V runtime (`riscv_rt/lib.c`): checked arithmetic and safe allocation

A shallow embedding of the runtime entry points of `lib.c`.

* Values of `int32_t`, `uint32_t` and `size_t` are integers (`Int`, `Nat`); every place where
  the machine narrows a value is an explicit `wrap32`, `wrap64` or `Platform.to_size_t`.
* A call returns, or ends the process through `exit(EXIT_FAILURE)` after writing a diagnostic
  to `stderr`; this is the type `Outcome`, which also records undefined behaviour and an
  exhausted loop budget so that their absence can be stated.
* The system allocator is an oracle `A : Nat → Option Nat` from the requested size to the
  address of the block (`none` is a refusal); a `Run` pairs the outcome of a call with the
  list of requests it made to the allocator.
* A `double` is NaN, an infinity, or an exact rational (`Double`).
* The C implementation supplies `SIZE_MAX` and the `sizeof` values; they are the fields of
  `Platform`.
-/

namespace MiniMBT

/-! ## Machine integers -/

/-- The constant `INT32_MAX` of `<stdint.h>`. -/
def INT32_MAX : Int := 2147483647

/-- The constant `INT32_MIN` of `<stdint.h>`. -/
def INT32_MIN : Int := -2147483648

/-- The constant `EXIT_FAILURE` of `<stdlib.h>`: the C library fixes it, and it is 1 in the
C libraries of the targets of this runtime (glibc, musl, newlib). -/
def EXIT_FAILURE : Nat := 1

/-- The integer `x` is a value of type `int32_t`. -/
def IsInt32 (x : Int) : Prop := INT32_MIN ≤ x ∧ x ≤ INT32_MAX

instance (x : Int) : Decidable (IsInt32 x) := by
  unfold IsInt32; exact inferInstance

/-- Two's-complement narrowing of an integer to 32 bits (what an `int32_t` object stores). -/
def wrap32 (x : Int) : Int := (x + 2147483648) % 4294967296 - 2147483648

/-- Two's-complement narrowing of an integer to 64 bits (`long long`). -/
def wrap64 (x : Int) : Int :=
  (x + 9223372036854775808) % 18446744073709551616 - 9223372036854775808

/-! ## Process outcomes -/

/-- What a call of a runtime entry point does, seen from the caller. -/
inductive Outcome (α : Type) where
  /-- The call returns `v` to the caller. -/
  | ret (v : α) : Outcome α
  /-- The call writes `diagnostic` to `stderr` and ends the process with `exit(status)`. -/
  | exit (status : Nat) (diagnostic : String) : Outcome α
  /-- The call has undefined behaviour: a store outside the block it was given, or a
  conversion whose value the target type cannot hold. -/
  | undefined : Outcome α
  /-- The loop budget of the model ran out before the call finished. -/
  | outOfFuel : Outcome α
deriving DecidableEq

/-- Rendering of an `int32_t` by the `%d` conversion of `fprintf`. -/
def fmt_d (a : Int) : String := toString a

/-! ## Checked arithmetic, `__GNUC__` / `__clang__` variant (lib.c 154-180) -/

/-- The compiler primitive `__builtin_add_overflow(a, b, &res)` at type `int32_t`: the sum is
formed in infinite precision and stored narrowed in `res`; the flag tells whether the stored
value differs from the exact one. -/
def builtin_add_overflow (a b : Int) : Bool × Int :=
  (decide (wrap32 (a + b) ≠ a + b), wrap32 (a + b))

/-- The compiler primitive `__builtin_sub_overflow(a, b, &res)` at type `int32_t`. -/
def builtin_sub_overflow (a b : Int) : Bool × Int :=
  (decide (wrap32 (a - b) ≠ a - b), wrap32 (a - b))

/-- The compiler primitive `__builtin_mul_overflow(a, b, &res)` at type `int32_t`. -/
def builtin_mul_overflow (a b : Int) : Bool × Int :=
  (decide (wrap32 (a * b) ≠ a * b), wrap32 (a * b))

/-- Function `minimbt_checked_add` (lib.c 155-162). -/
def minimbt_checked_add (a b : Int) : Outcome Int :=
  let r := builtin_add_overflow a b
  if r.1 then
    Outcome.exit EXIT_FAILURE ("Overflow adding " ++ fmt_d a ++ " and " ++ fmt_d b ++ "\n")
  else
    Outcome.ret r.2

/-- Function `minimbt_checked_sub` (lib.c 164-171). -/
def minimbt_checked_sub (a b : Int) : Outcome Int :=
  let r := builtin_sub_overflow a b
  if r.1 then
    Outcome.exit EXIT_FAILURE ("Overflow subtracting " ++ fmt_d a ++ " and " ++ fmt_d b ++ "\n")
  else
    Outcome.ret r.2

/-- Function `minimbt_checked_mul` (lib.c 173-180). -/
def minimbt_checked_mul (a b : Int) : Outcome Int :=
  let r := builtin_mul_overflow a b
  if r.1 then
    Outcome.exit EXIT_FAILURE ("Overflow multiplying " ++ fmt_d a ++ " and " ++ fmt_d b ++ "\n")
  else
    Outcome.ret r.2

/-! ## Checked arithmetic, fallback variant (lib.c 183-211)

Every `int` sub-expression is narrowed with `wrap32`, the `long long` product with `wrap64`;
`&&` and `||` are the short-circuit Boolean operators. -/

/-- Function `minimbt_checked_add`, fallback manual checks (lib.c 184-190). -/
def minimbt_checked_add_fallback (a b : Int) : Outcome Int :=
  if (decide (b > 0) && decide (a > wrap32 (INT32_MAX - b)))
      || (decide (b < 0) && decide (a < wrap32 (INT32_MIN - b))) then
    Outcome.exit EXIT_FAILURE ("Overflow adding " ++ fmt_d a ++ " and " ++ fmt_d b ++ "\n")
  else
    Outcome.ret (wrap32 (a + b))

/-- Function `minimbt_checked_sub`, fallback manual checks (lib.c 192-198). -/
def minimbt_checked_sub_fallback (a b : Int) : Outcome Int :=
  if (decide (b > 0) && decide (a < wrap32 (INT32_MIN + b)))
      || (decide (b < 0) && decide (a > wrap32 (INT32_MAX + b))) then
    Outcome.exit EXIT_FAILURE ("Overflow subtracting " ++ fmt_d a ++ " and " ++ fmt_d b ++ "\n")
  else
    Outcome.ret (wrap32 (a - b))

/-- Function `minimbt_checked_mul`, fallback manual checks (lib.c 200-211). -/
def minimbt_checked_mul_fallback (a b : Int) : Outcome Int :=
  let temp_res := wrap64 (a * b)
  if decide (temp_res > INT32_MAX) || decide (temp_res < INT32_MIN) then
    Outcome.exit EXIT_FAILURE ("Overflow multiplying " ++ fmt_d a ++ " and " ++ fmt_d b ++ "\n")
  else if (decide (a = INT32_MIN) && decide (b = -1))
      || (decide (b = INT32_MIN) && decide (a = -1)) then
    Outcome.exit EXIT_FAILURE ("Overflow multiplying " ++ fmt_d a ++ " and " ++ fmt_d b ++ "\n")
  else
    Outcome.ret (wrap32 temp_res)

/-! ## Checked division (lib.c 214-224) -/

/-- Function `minimbt_checked_div` (lib.c 214-224). The C operator `/` on `int32_t` is division
truncating toward zero (`Int.tdiv`), its result stored as an `int32_t`. -/
def minimbt_checked_div (a b : Int) : Outcome Int :=
  if b = 0 then
    Outcome.exit EXIT_FAILURE ("Divide by zero (" ++ fmt_d a ++ " / " ++ fmt_d b ++ ")\n")
  else if decide (a = INT32_MIN) && decide (b = -1) then
    Outcome.exit EXIT_FAILURE ("Overflow dividing " ++ fmt_d a ++ " by " ++ fmt_d b ++ "\n")
  else
    Outcome.ret (wrap32 (Int.tdiv a b))

/-! ## Floating point (lib.c 54-59)

A `double` is NaN, one of the two infinities, or a finite value given by its exact rational
value (the sign of zero plays no role in the functions modelled here). -/

/-- Values of the C type `double`. -/
inductive Double where
  /-- Not-a-number. -/
  | nan : Double
  /-- Positive infinity. -/
  | posInf : Double
  /-- Negative infinity. -/
  | negInf : Double
  /-- A finite value, by its exact rational value. -/
  | fin (q : ℚ) : Double
deriving DecidableEq

/-- The classification `isnan` of `<math.h>`. -/
def isnan (f : Double) : Bool :=
  match f with
  | Double.nan => true
  | _ => false

/-- The C comparison `x < y` on `double`: false as soon as one side is NaN. -/
def Double.lt (x y : Double) : Bool :=
  match x, y with
  | Double.fin p, Double.fin q => decide (p < q)
  | Double.negInf, Double.fin _ => true
  | Double.negInf, Double.posInf => true
  | Double.fin _, Double.posInf => true
  | _, _ => false

/-- The C comparison `x > y` on `double`. -/
def Double.gt (x y : Double) : Bool := Double.lt y x

/-- The conversion `(double)i` of an `int32_t`: every 32-bit integer is a `double`. -/
def double_of_int32 (i : Int) : Double := Double.fin (i : ℚ)

/-- The rational `q` with its fractional part discarded (rounding toward zero). -/
def truncQ (q : ℚ) : Int := Int.tdiv q.num (q.den : Int)

/-- The conversion `(int32_t)f` of a `double`: the fractional part is discarded; the
behaviour is undefined when the value so obtained is not an `int32_t` (C11 6.3.1.4). -/
def int32_of_double (f : Double) : Outcome Int :=
  match f with
  | Double.fin q => if IsInt32 (truncQ q) then Outcome.ret (truncQ q) else Outcome.undefined
  | _ => Outcome.undefined

/-- Function `minimbt_int_of_float` (lib.c 54-59). -/
def minimbt_int_of_float (f : Double) : Outcome Int :=
  if isnan f || Double.gt f (double_of_int32 INT32_MAX)
      || Double.lt f (double_of_int32 INT32_MIN) then
    Outcome.ret 0
  else
    int32_of_double f

/-! ## Safe allocation (lib.c 15-18, 86-151) -/

/-- What `lib.c` takes from the C implementation it is compiled for. -/
structure Platform where
  /-- Width in bits of `size_t`. -/
  size_bits : Nat
  /-- The value of `sizeof(int32_t)`. -/
  sizeof_int32 : Nat
  /-- The value of `sizeof(void *)`. -/
  sizeof_ptr : Nat
  /-- The value of `sizeof(double)`. -/
  sizeof_double : Nat

/-- The constant `SIZE_MAX` of `<stdint.h>`. -/
def Platform.SIZE_MAX (P : Platform) : Nat := 2 ^ P.size_bits - 1

/-- Every object type has a size of at least one byte. -/
def Platform.WellFormed (P : Platform) : Prop :=
  0 < P.sizeof_int32 ∧ 0 < P.sizeof_ptr ∧ 0 < P.sizeof_double

instance (P : Platform) : Decidable P.WellFormed := by
  unfold Platform.WellFormed; exact inferInstance

/-- The LP64 RISC-V target (`rv64`): 64-bit `size_t` and pointers. -/
def rv64 : Platform := ⟨64, 4, 8, 8⟩

/-- The conversion `(size_t)x` of an unsigned value. -/
def Platform.to_size_t (P : Platform) (x : Nat) : Nat := x % (P.SIZE_MAX + 1)

/-- A block obtained from the system allocator, seen as an array of elements of type `α`:
its address, its size in bytes, and its slots (`none` is a slot never written). -/
structure Block (α : Type) where
  /-- Address of the first byte. -/
  addr : Nat
  /-- Number of bytes obtained from `malloc`. -/
  size : Nat
  /-- Contents, one entry per whole element that fits in `size` bytes. -/
  slots : List (Option α)
deriving DecidableEq

/-- A pointer to `α`: `none` is `NULL`. -/
abbrev Ptr (α : Type) := Option (Block α)

/-- A call together with the requests it made to the system allocator. -/
structure Run (α : Type) where
  /-- How the call ends. -/
  outcome : Outcome α
  /-- The arguments of the calls to the system `malloc`, in call order. -/
  mallocs : List Nat

/-- A computation that touches neither the allocator nor the process. -/
def Run.pure {α : Type} (v : α) : Run α := ⟨Outcome.ret v, []⟩

/-- A computation that makes no allocator call. -/
def Run.lift {α : Type} (o : Outcome α) : Run α := ⟨o, []⟩

/-- Sequencing of outcomes: what follows runs only when the first part returns. -/
def Outcome.bind {α β : Type} (o : Outcome α) (k : α → Outcome β) : Outcome β :=
  match o with
  | Outcome.ret v => k v
  | Outcome.exit s d => Outcome.exit s d
  | Outcome.undefined => Outcome.undefined
  | Outcome.outOfFuel => Outcome.outOfFuel

/-- Sequencing of runs: what follows runs only when the first part returns, and the
allocator requests accumulate. -/
def Run.bind {α β : Type} (r : Run α) (k : α → Run β) : Run β :=
  match r.outcome with
  | Outcome.ret v => ⟨(k v).outcome, r.mallocs ++ (k v).mallocs⟩
  | Outcome.exit s d => ⟨Outcome.exit s d, r.mallocs⟩
  | Outcome.undefined => ⟨Outcome.undefined, r.mallocs⟩
  | Outcome.outOfFuel => ⟨Outcome.outOfFuel, r.mallocs⟩

/-- The system allocator `malloc(size)`, answered by the oracle `A` (`none` is a refusal,
`some addr` the address of a fresh block), with the result seen as a pointer to elements of
`element_size` bytes. -/
def sys_malloc {α : Type} (A : Nat → Option Nat) (element_size size : Nat) : Run (Ptr α) :=
  ⟨Outcome.ret ((A size).map fun addr => ⟨addr, size, List.replicate (size / element_size) none⟩),
    [size]⟩

/-- The store `arr[i] = v`. -/
def store {α : Type} (arr : Ptr α) (i : Nat) (v : α) : Outcome (Ptr α) :=
  match arr with
  | none => Outcome.undefined
  | some b =>
    if i < b.slots.length then
      Outcome.ret (some { b with slots := b.slots.set i (some v) })
    else
      Outcome.undefined

/-- Function `allocation_panic` (lib.c 15-18). -/
def allocation_panic {α : Type} (message : String) : Outcome α :=
  Outcome.exit EXIT_FAILURE ("Allocation failed: " ++ message ++ "\n")

/-- Function `minimbt_malloc` (lib.c 86-95); the argument of `malloc` is converted to `size_t`. -/
def minimbt_malloc (P : Platform) (A : Nat → Option Nat) (sz : Nat) : Run (Ptr Nat) :=
  if sz = 0 then
    Run.pure none
  else
    (sys_malloc A 1 (P.to_size_t sz)).bind fun ptr =>
    (if ptr.isNone then Run.lift (allocation_panic "minimbt_malloc")
      else Run.pure ()).bind fun _ =>
    Run.pure ptr

/-- Function `safe_multiply_size` (lib.c 97-106). -/
def safe_multiply_size (P : Platform) (count element_size : Nat) : Outcome Nat :=
  if count = 0 then
    Outcome.ret 0
  else if decide (element_size > 0) && decide (count > P.SIZE_MAX / element_size) then
    Outcome.exit EXIT_FAILURE
      ("Integer overflow calculating allocation size (" ++ toString count ++ " * "
        ++ toString element_size ++ ")\n")
  else
    Outcome.ret (P.to_size_t (P.to_size_t count * element_size))

/-- The loop `for (uint32_t i = ...; i < n; ++i) { arr[i] = v; }` of the three typed
constructors, started at `i`; `fuel` bounds the number of loop tests. -/
def fill_loop {α : Type} (fuel n : Nat) (v : α) (i : Nat) (arr : Ptr α) : Outcome (Ptr α) :=
  match fuel with
  | 0 => Outcome.outOfFuel
  | fuel + 1 =>
    if i < n then
      (store arr i v).bind fun arr => fill_loop fuel n v ((i + 1) % 4294967296) arr
    else
      Outcome.ret arr

/-- Function `minimbt_create_array` (lib.c 108-121). -/
def minimbt_create_array (P : Platform) (A : Nat → Option Nat) (fuel n : Nat) (v : Int) :
    Run (Ptr Int) :=
  (Run.lift (safe_multiply_size P n P.sizeof_int32)).bind fun total_size =>
  if total_size = 0 then
    Run.pure none
  else
    (sys_malloc A P.sizeof_int32 total_size).bind fun arr =>
    (if arr.isNone then Run.lift (allocation_panic "minimbt_create_array")
      else Run.pure ()).bind fun _ =>
    Run.lift (fill_loop fuel n v 0 arr)

/-- Function `minimbt_create_ptr_array` (lib.c 123-136); a `void *` value is an address. -/
def minimbt_create_ptr_array (P : Platform) (A : Nat → Option Nat) (fuel n : Nat) (init : Nat) :
    Run (Ptr Nat) :=
  (Run.lift (safe_multiply_size P n P.sizeof_ptr)).bind fun total_size =>
  if total_size = 0 then
    Run.pure none
  else
    (sys_malloc A P.sizeof_ptr total_size).bind fun arr =>
    (if arr.isNone then Run.lift (allocation_panic "minimbt_create_ptr_array")
      else Run.pure ()).bind fun _ =>
    Run.lift (fill_loop fuel n init 0 arr)

/-- Function `minimbt_create_float_array` (lib.c 138-151). -/
def minimbt_create_float_array (P : Platform) (A : Nat → Option Nat) (fuel n : Nat)
    (v : Double) : Run (Ptr Double) :=
  (Run.lift (safe_multiply_size P n P.sizeof_double)).bind fun total_size =>
  if total_size = 0 then
    Run.pure none
  else
    (sys_malloc A P.sizeof_double total_size).bind fun arr =>
    (if arr.isNone then Run.lift (allocation_panic "minimbt_create_float_array")
      else Run.pure ()).bind fun _ =>
    Run.lift (fill_loop fuel n v 0 arr)

/-- The common shape of the three typed constructors, with the element size and the name
passed to `allocation_panic` as parameters. It is a device for the proofs only: each
constructor above is written out from its own source text and shown equal to an instance of
this shape by unfolding. -/
def typed_constructor {α : Type} (P : Platform) (element_size : Nat) (name : String)
    (A : Nat → Option Nat) (fuel n : Nat) (v : α) : Run (Ptr α) :=
  (Run.lift (safe_multiply_size P n element_size)).bind fun total_size =>
  if total_size = 0 then
    Run.pure none
  else
    (sys_malloc A element_size total_size).bind fun arr =>
    (if arr.isNone then Run.lift (allocation_panic name) else Run.pure ()).bind fun _ =>
    Run.lift (fill_loop fuel n v 0 arr)

/-! ## Float coercions and float math (lib.c 61-84) -/

/-- The function `floor` of `<math.h>`: NaN and the infinities are returned unchanged, a
finite value is rounded down to an integer (which is again a `double`). -/
def floor (f : Double) : Double :=
  match f with
  | Double.fin q => Double.fin ((⌊q⌋ : Int) : ℚ)
  | x => x

/-- The function `fabs` of `<math.h>`. -/
def fabs (f : Double) : Double :=
  match f with
  | Double.fin q => Double.fin |q|
  | Double.negInf => Double.posInf
  | x => x

/-- The functions of `<math.h>` that `lib.c` only forwards to; the C library supplies them. -/
structure Libm where
  /-- The function `sqrt` of `<math.h>`. -/
  sqrt : Double → Double
  /-- The function `sin` of `<math.h>`. -/
  sin : Double → Double
  /-- The function `cos` of `<math.h>`. -/
  cos : Double → Double
  /-- The function `atan` of `<math.h>`. -/
  atan : Double → Double

/-- Function `minimbt_float_of_int` (lib.c 61). -/
def minimbt_float_of_int (i : Int) : Double := double_of_int32 i

/-- Function `minimbt_truncate` (lib.c 63). -/
def minimbt_truncate (f : Double) : Outcome Int := minimbt_int_of_float f

/-- Function `minimbt_floor` (lib.c 65-74). -/
def minimbt_floor (f : Double) : Outcome Int :=
  if isnan f then
    Outcome.ret 0
  else
    let floor_val := floor f
    if Double.gt floor_val (double_of_int32 INT32_MAX)
        || Double.lt floor_val (double_of_int32 INT32_MIN) then
      Outcome.ret 0
    else
      int32_of_double floor_val

/-- Function `minimbt_abs_float` (lib.c 76). -/
def minimbt_abs_float (f : Double) : Double := fabs f

/-- Function `minimbt_sqrt` (lib.c 78). -/
def minimbt_sqrt (L : Libm) (f : Double) : Double := L.sqrt f

/-- Function `minimbt_sin` (lib.c 80). -/
def minimbt_sin (L : Libm) (f : Double) : Double := L.sin f

/-- Function `minimbt_cos` (lib.c 82). -/
def minimbt_cos (L : Libm) (f : Double) : Double := L.cos f

/-- Function `minimbt_atan` (lib.c 84). -/
def minimbt_atan (L : Libm) (f : Double) : Double := L.atan f

/-- A finite value that the type `double` holds exactly: `m * 2 ^ e` with a significand of at
most 53 bits and an exponent in the range of IEEE 754 binary64. -/
def IsBinary64 (q : ℚ) : Prop :=
  ∃ m e : Int, |m| < 9007199254740992 ∧ -1074 ≤ e ∧ e ≤ 971 ∧ q = (m : ℚ) * (2 : ℚ) ^ e

/-! ## Standard output (lib.c 35-52)

Standard output is the sequence of bytes written so far; `fflush` adds no byte. -/

/-- The conversion `(char)x` of an `int32_t`; whether `char` is signed is fixed by the C
implementation. -/
def char_of_int32 (char_signed : Bool) (x : Int) : Int :=
  if char_signed then (x + 128) % 256 - 128 else x % 256

/-- The function `putchar` of `<stdio.h>`: writes its argument converted to `unsigned char`. -/
def putchar (c : Int) (out : List Nat) : List Nat := out ++ [(c % 256).toNat]

/-- The function `printf` of `<stdio.h>` with a format that has been expanded to `text`. -/
def printf (text : String) (out : List Nat) : List Nat := out ++ text.toList.map Char.toNat

/-- The function `fflush` of `<stdio.h>` on standard output. -/
def fflush (out : List Nat) : List Nat := out

/-- Function `minimbt_print_int` (lib.c 35-38). -/
def minimbt_print_int (i : Int) (out : List Nat) : List Nat :=
  fflush (printf (fmt_d i) out)

/-- Function `minimbt_print_endline` (lib.c 40-43). -/
def minimbt_print_endline (out : List Nat) : List Nat :=
  fflush (printf "\n" out)

/-- Function `minimbt_print_char` (lib.c 45-52). -/
def minimbt_print_char (char_signed : Bool) (ch : Int) (out : List Nat) : List Nat :=
  if decide (ch ≥ 0) && decide (ch ≤ 255) then
    fflush (putchar (char_of_int32 char_signed ch) out)
  else
    fflush (putchar (Int.ofNat (Char.toNat '?')) out)

/-! ## Compatibility functions (lib.c 226-247) -/

/-- Function `mincaml_print_int` (lib.c 227). -/
def mincaml_print_int (i : Int) (out : List Nat) : List Nat := minimbt_print_int i out

/-- Function `mincaml_print_endline` (lib.c 228). -/
def mincaml_print_endline (out : List Nat) : List Nat := minimbt_print_endline out

/-- Function `mincaml_int_of_float` (lib.c 229). -/
def mincaml_int_of_float (f : Double) : Outcome Int := minimbt_int_of_float f

/-- Function `mincaml_float_of_int` (lib.c 230). -/
def mincaml_float_of_int (i : Int) : Double := minimbt_float_of_int i

/-- Function `mincaml_truncate` (lib.c 231). -/
def mincaml_truncate (f : Double) : Outcome Int := minimbt_truncate f

/-- Function `mincaml_floor` (lib.c 232). -/
def mincaml_floor (f : Double) : Outcome Int := minimbt_floor f

/-- Function `mincaml_abs_float` (lib.c 233). -/
def mincaml_abs_float (f : Double) : Double := minimbt_abs_float f

/-- Function `mincaml_sqrt` (lib.c 234). -/
def mincaml_sqrt (L : Libm) (f : Double) : Double := minimbt_sqrt L f

/-- Function `mincaml_sin` (lib.c 235). -/
def mincaml_sin (L : Libm) (f : Double) : Double := minimbt_sin L f

/-- Function `mincaml_cos` (lib.c 236). -/
def mincaml_cos (L : Libm) (f : Double) : Double := minimbt_cos L f

/-- Function `mincaml_atan` (lib.c 237). -/
def mincaml_atan (L : Libm) (f : Double) : Double := minimbt_atan L f

/-- Function `mincaml_malloc` (lib.c 238). -/
def mincaml_malloc (P : Platform) (A : Nat → Option Nat) (sz : Nat) : Run (Ptr Nat) :=
  minimbt_malloc P A sz

/-- Function `mincaml_create_array` (lib.c 239-241). -/
def mincaml_create_array (P : Platform) (A : Nat → Option Nat) (fuel n : Nat) (v : Int) :
    Run (Ptr Int) :=
  minimbt_create_array P A fuel n v

/-- Function `mincaml_create_ptr_array` (lib.c 242-244). -/
def mincaml_create_ptr_array (P : Platform) (A : Nat → Option Nat) (fuel n : Nat) (init : Nat) :
    Run (Ptr Nat) :=
  minimbt_create_ptr_array P A fuel n init

/-- Function `mincaml_create_float_array` (lib.c 245-247). -/
def mincaml_create_float_array (P : Platform) (A : Nat → Option Nat) (fuel n : Nat)
    (v : Double) : Run (Ptr Double) :=
  minimbt_create_float_array P A fuel n v

/-! ## Instrumented copies of the fallback arithmetic and of the fill loop

The definitions of this section repeat code modelled above with one more observation each:
which guard of the fallback multiply ends the call, whether an `int` or `long long`
operation of the fallback arithmetic leaves the range of its type, and which slots the fill
loop writes. Each is shown below to agree with the definition it repeats. -/

/-- The first guard of the fallback multiply (lib.c 201-202):
`temp_res > INT32_MAX || temp_res < INT32_MIN`. -/
def mul_fallback_guard1 (a b : Int) : Bool :=
  let temp_res := wrap64 (a * b)
  decide (temp_res > INT32_MAX) || decide (temp_res < INT32_MIN)

/-- The second guard of the fallback multiply (lib.c 206):
`(a == INT32_MIN && b == -1) || (b == INT32_MIN && a == -1)`. -/
def mul_fallback_guard2 (a b : Int) : Bool :=
  (decide (a = INT32_MIN) && decide (b = -1)) || (decide (b = INT32_MIN) && decide (a = -1))

/-- The statement of the fallback multiply (lib.c 200-211) that ends the call: `1` for the
`exit` under the first guard, `2` for the `exit` under the second guard, `0` for the final
`return`. -/
def mul_fallback_branch (a b : Int) : Nat :=
  if mul_fallback_guard1 a b then 1
  else if mul_fallback_guard2 a b then 2
  else 0

/-- The integer `x` is a value of type `long long` (64 bits). -/
def IsInt64 (x : Int) : Prop := -9223372036854775808 ≤ x ∧ x ≤ 9223372036854775807

instance (x : Int) : Decidable (IsInt64 x) := by
  unfold IsInt64; exact inferInstance

/-- The C operator `+` on `int`, with overflow observed: the exact sum when it is an `int`,
undefined behaviour otherwise. -/
def int_add (x y : Int) : Outcome Int :=
  if IsInt32 (x + y) then Outcome.ret (x + y) else Outcome.undefined

/-- The C operator `-` on `int`, with overflow observed. -/
def int_sub (x y : Int) : Outcome Int :=
  if IsInt32 (x - y) then Outcome.ret (x - y) else Outcome.undefined

/-- The C operator `*` on `long long`, with overflow observed. -/
def llong_mul (x y : Int) : Outcome Int :=
  if IsInt64 (x * y) then Outcome.ret (x * y) else Outcome.undefined

/-- The conversion `(int32_t)x` of a `long long`, observed: the value itself when it is an
`int32_t`, and `undefined` when the conversion would change the value. -/
def int32_of_llong (x : Int) : Outcome Int :=
  if IsInt32 x then Outcome.ret x else Outcome.undefined

/-- The C operator `p && q` with a left operand that cannot overflow: `q` is evaluated only
when `p` holds. -/
def c_and (p : Bool) (q : Outcome Bool) : Outcome Bool :=
  if p then q else Outcome.ret false

/-- The C operator `p || q`: `q` is evaluated only when `p` has returned false. -/
def c_or (p q : Outcome Bool) : Outcome Bool :=
  p.bind fun x => if x then Outcome.ret true else q

/-- The fallback `minimbt_checked_add` (lib.c 184-190) with every `int` operation observed. -/
def minimbt_checked_add_fallback_observed (a b : Int) : Outcome Int :=
  (c_or
    (c_and (decide (b > 0)) ((int_sub INT32_MAX b).bind fun t => Outcome.ret (decide (a > t))))
    (c_and (decide (b < 0)) ((int_sub INT32_MIN b).bind fun t => Outcome.ret (decide (a < t))))
  ).bind fun overflow =>
  if overflow then
    Outcome.exit EXIT_FAILURE ("Overflow adding " ++ fmt_d a ++ " and " ++ fmt_d b ++ "\n")
  else
    int_add a b

/-- The fallback `minimbt_checked_sub` (lib.c 192-198) with every `int` operation observed. -/
def minimbt_checked_sub_fallback_observed (a b : Int) : Outcome Int :=
  (c_or
    (c_and (decide (b > 0)) ((int_add INT32_MIN b).bind fun t => Outcome.ret (decide (a < t))))
    (c_and (decide (b < 0)) ((int_add INT32_MAX b).bind fun t => Outcome.ret (decide (a > t))))
  ).bind fun overflow =>
  if overflow then
    Outcome.exit EXIT_FAILURE ("Overflow subtracting " ++ fmt_d a ++ " and " ++ fmt_d b ++ "\n")
  else
    int_sub a b

/-- The fallback `minimbt_checked_mul` (lib.c 200-211) with the `long long` product and the
narrowing conversion observed. -/
def minimbt_checked_mul_fallback_observed (a b : Int) : Outcome Int :=
  (llong_mul a b).bind fun temp_res =>
  if decide (temp_res > INT32_MAX) || decide (temp_res < INT32_MIN) then
    Outcome.exit EXIT_FAILURE ("Overflow multiplying " ++ fmt_d a ++ " and " ++ fmt_d b ++ "\n")
  else if (decide (a = INT32_MIN) && decide (b = -1))
      || (decide (b = INT32_MIN) && decide (a = -1)) then
    Outcome.exit EXIT_FAILURE ("Overflow multiplying " ++ fmt_d a ++ " and " ++ fmt_d b ++ "\n")
  else
    int32_of_llong temp_res

/-- The fill loop of the typed constructors (as `fill_loop`), which also records in `log`
the value of the counter `i` at each execution of the body `arr[i] = v`. -/
def fill_loop_log {α : Type} (fuel n : Nat) (v : α) (i : Nat) (arr : Ptr α) (log : List Nat) :
    Outcome (Ptr α × List Nat) :=
  match fuel with
  | 0 => Outcome.outOfFuel
  | fuel + 1 =>
    if i < n then
      (store arr i v).bind fun arr =>
        fill_loop_log fuel n v ((i + 1) % 4294967296) arr (log ++ [i])
    else
      Outcome.ret (arr, log)

/-! ## Helper lemmas on narrowing -/

theorem wrap32_of_isInt32 {x : Int} (h : IsInt32 x) : wrap32 x = x := by
  unfold IsInt32 INT32_MIN INT32_MAX at h
  unfold wrap32
  omega

theorem wrap32_eq_iff (x : Int) : wrap32 x = x ↔ IsInt32 x := by
  unfold IsInt32 INT32_MIN INT32_MAX wrap32
  omega

theorem isInt32_wrap32 (x : Int) : IsInt32 (wrap32 x) := by
  unfold IsInt32 INT32_MIN INT32_MAX wrap32
  omega

theorem wrap64_of_bounds {x : Int} (h1 : -9223372036854775808 ≤ x)
    (h2 : x ≤ 9223372036854775807) : wrap64 x = x := by
  unfold wrap64
  omega

theorem mul_bounds_of_isInt32 {a b : Int} (ha : IsInt32 a) (hb : IsInt32 b) :
    -4611686018427387904 ≤ a * b ∧ a * b ≤ 4611686018427387904 := by
  unfold IsInt32 INT32_MIN INT32_MAX at ha hb
  obtain ⟨ha1, ha2⟩ := ha
  obtain ⟨hb1, hb2⟩ := hb
  constructor <;> nlinarith

theorem truncQ_of_nonneg {q : ℚ} (h : 0 ≤ q) : truncQ q = ⌊q⌋ := by
  have hn : 0 ≤ q.num := Rat.num_nonneg.mpr h
  unfold truncQ
  rw [Int.tdiv_eq_ediv hn (Int.ofNat_nonneg _), Rat.floor_def]

theorem truncQ_of_nonpos {q : ℚ} (h : q ≤ 0) : truncQ q = ⌈q⌉ := by
  have hn : 0 ≤ (-q).num := Rat.num_nonneg.mpr (by linarith)
  have h1 : ⌈q⌉ = -⌊-q⌋ := by rw [Int.floor_neg, neg_neg]
  rw [h1, Rat.floor_def]
  unfold truncQ
  rw [Rat.neg_num] at hn
  rw [Rat.neg_num, Rat.neg_den, ← Int.tdiv_eq_ediv hn (Int.ofNat_nonneg _), Int.neg_tdiv, neg_neg]

/-! ## Checked arithmetic: theorems -/

theorem checked_builtin_ret {x : Int} {d : String} (h : IsInt32 x) :
    (if (decide (wrap32 x ≠ x), wrap32 x).1 = true then Outcome.exit EXIT_FAILURE d
      else Outcome.ret (decide (wrap32 x ≠ x), wrap32 x).2) = Outcome.ret x := by
  simp [wrap32_of_isInt32 h]

theorem checked_builtin_exit {x : Int} {d : String} (h : ¬ IsInt32 x) :
    (if (decide (wrap32 x ≠ x), wrap32 x).1 = true then Outcome.exit EXIT_FAILURE d
      else Outcome.ret (decide (wrap32 x ≠ x), wrap32 x).2) = Outcome.exit EXIT_FAILURE d := by
  have h1 : wrap32 x ≠ x := fun e => h ((wrap32_eq_iff x).mp e)
  simp [h1]

theorem minimbt_checked_add_ret {a b : Int} (h : IsInt32 (a + b)) :
    minimbt_checked_add a b = Outcome.ret (a + b) := by
  unfold minimbt_checked_add builtin_add_overflow
  exact checked_builtin_ret h

theorem minimbt_checked_add_exit {a b : Int} (h : ¬ IsInt32 (a + b)) :
    minimbt_checked_add a b
      = Outcome.exit EXIT_FAILURE ("Overflow adding " ++ fmt_d a ++ " and " ++ fmt_d b ++ "\n") := by
  unfold minimbt_checked_add builtin_add_overflow
  exact checked_builtin_exit h

theorem minimbt_checked_sub_ret {a b : Int} (h : IsInt32 (a - b)) :
    minimbt_checked_sub a b = Outcome.ret (a - b) := by
  unfold minimbt_checked_sub builtin_sub_overflow
  exact checked_builtin_ret h

theorem minimbt_checked_sub_exit {a b : Int} (h : ¬ IsInt32 (a - b)) :
    minimbt_checked_sub a b
      = Outcome.exit EXIT_FAILURE
          ("Overflow subtracting " ++ fmt_d a ++ " and " ++ fmt_d b ++ "\n") := by
  unfold minimbt_checked_sub builtin_sub_overflow
  exact checked_builtin_exit h

theorem minimbt_checked_mul_ret {a b : Int} (h : IsInt32 (a * b)) :
    minimbt_checked_mul a b = Outcome.ret (a * b) := by
  unfold minimbt_checked_mul builtin_mul_overflow
  exact checked_builtin_ret h

theorem minimbt_checked_mul_exit {a b : Int} (h : ¬ IsInt32 (a * b)) :
    minimbt_checked_mul a b
      = Outcome.exit EXIT_FAILURE
          ("Overflow multiplying " ++ fmt_d a ++ " and " ++ fmt_d b ++ "\n") := by
  unfold minimbt_checked_mul builtin_mul_overflow
  exact checked_builtin_exit h

theorem minimbt_checked_add_fallback_ret {a b : Int} (ha : IsInt32 a) (hb : IsInt32 b)
    (h : IsInt32 (a + b)) : minimbt_checked_add_fallback a b = Outcome.ret (a + b) := by
  unfold minimbt_checked_add_fallback
  rw [wrap32_of_isInt32 h]
  unfold IsInt32 INT32_MIN INT32_MAX at ha hb h
  have h1 : ¬ (b > 0 ∧ a > wrap32 (INT32_MAX - b)) := by
    unfold wrap32 INT32_MAX; omega
  have h2 : ¬ (b < 0 ∧ a < wrap32 (INT32_MIN - b)) := by
    unfold wrap32 INT32_MIN; omega
  simp only [Bool.or_eq_true, Bool.and_eq_true, decide_eq_true_eq, h1, h2, or_self, if_false]

theorem minimbt_checked_add_fallback_exit {a b : Int} (ha : IsInt32 a) (hb : IsInt32 b)
    (h : ¬ IsInt32 (a + b)) :
    minimbt_checked_add_fallback a b
      = Outcome.exit EXIT_FAILURE ("Overflow adding " ++ fmt_d a ++ " and " ++ fmt_d b ++ "\n") := by
  unfold minimbt_checked_add_fallback
  unfold IsInt32 INT32_MIN INT32_MAX at ha hb h
  have h1 : (b > 0 ∧ a > wrap32 (INT32_MAX - b)) ∨ (b < 0 ∧ a < wrap32 (INT32_MIN - b)) := by
    unfold wrap32 INT32_MAX INT32_MIN; omega
  simp only [Bool.or_eq_true, Bool.and_eq_true, decide_eq_true_eq, h1, if_true]

theorem minimbt_checked_sub_fallback_ret {a b : Int} (ha : IsInt32 a) (hb : IsInt32 b)
    (h : IsInt32 (a - b)) : minimbt_checked_sub_fallback a b = Outcome.ret (a - b) := by
  unfold minimbt_checked_sub_fallback
  rw [wrap32_of_isInt32 h]
  unfold IsInt32 INT32_MIN INT32_MAX at ha hb h
  have h1 : ¬ (b > 0 ∧ a < wrap32 (INT32_MIN + b)) := by
    unfold wrap32 INT32_MIN; omega
  have h2 : ¬ (b < 0 ∧ a > wrap32 (INT32_MAX + b)) := by
    unfold wrap32 INT32_MAX; omega
  simp only [Bool.or_eq_true, Bool.and_eq_true, decide_eq_true_eq, h1, h2, or_self, if_false]

theorem minimbt_checked_sub_fallback_exit {a b : Int} (ha : IsInt32 a) (hb : IsInt32 b)
    (h : ¬ IsInt32 (a - b)) :
    minimbt_checked_sub_fallback a b
      = Outcome.exit EXIT_FAILURE
          ("Overflow subtracting " ++ fmt_d a ++ " and " ++ fmt_d b ++ "\n") := by
  unfold minimbt_checked_sub_fallback
  unfold IsInt32 INT32_MIN INT32_MAX at ha hb h
  have h1 : (b > 0 ∧ a < wrap32 (INT32_MIN + b)) ∨ (b < 0 ∧ a > wrap32 (INT32_MAX + b)) := by
    unfold wrap32 INT32_MAX INT32_MIN; omega
  simp only [Bool.or_eq_true, Bool.and_eq_true, decide_eq_true_eq, h1, if_true]

theorem minimbt_checked_mul_fallback_ret {a b : Int} (ha : IsInt32 a) (hb : IsInt32 b)
    (h : IsInt32 (a * b)) : minimbt_checked_mul_fallback a b = Outcome.ret (a * b) := by
  obtain ⟨m1, m2⟩ := mul_bounds_of_isInt32 ha hb
  unfold minimbt_checked_mul_fallback
  rw [wrap64_of_bounds (by omega) (by omega)]
  dsimp only
  rw [wrap32_of_isInt32 h]
  have h1 : ¬ (a * b > INT32_MAX ∨ a * b < INT32_MIN) := by
    unfold IsInt32 at h; omega
  have h2 : ¬ ((a = INT32_MIN ∧ b = -1) ∨ (b = INT32_MIN ∧ a = -1)) := by
    unfold IsInt32 INT32_MIN INT32_MAX at h
    unfold INT32_MIN
    rintro (⟨e1, e2⟩ | ⟨e1, e2⟩) <;> subst e1 <;> subst e2 <;> omega
  simp only [Bool.or_eq_true, Bool.and_eq_true, decide_eq_true_eq, h1, h2, if_false]

theorem minimbt_checked_mul_fallback_exit {a b : Int} (ha : IsInt32 a) (hb : IsInt32 b)
    (h : ¬ IsInt32 (a * b)) :
    minimbt_checked_mul_fallback a b
      = Outcome.exit EXIT_FAILURE
          ("Overflow multiplying " ++ fmt_d a ++ " and " ++ fmt_d b ++ "\n") := by
  obtain ⟨m1, m2⟩ := mul_bounds_of_isInt32 ha hb
  unfold minimbt_checked_mul_fallback
  rw [wrap64_of_bounds (by omega) (by omega)]
  have h1 : a * b > INT32_MAX ∨ a * b < INT32_MIN := by
    unfold IsInt32 at h; omega
  simp only [Bool.or_eq_true, decide_eq_true_eq, h1, if_true]

/-- C1: for 32-bit signed `a` and `b`, `minimbt_checked_mul a b` (in both compile-time
variants) returns a value exactly when the exact product `a * b` is a 32-bit signed integer,
the value returned is then `a * b` itself, and for every other pair the call ends the process
with `EXIT_FAILURE` and returns nothing. -/
theorem minimbt_checked_mul_spec (a b : Int) (ha : IsInt32 a) (hb : IsInt32 b) :
    (((∃ v, minimbt_checked_mul a b = Outcome.ret v) ↔ IsInt32 (a * b))
      ∧ (IsInt32 (a * b) → minimbt_checked_mul a b = Outcome.ret (a * b))
      ∧ (¬ IsInt32 (a * b) → ∃ d, minimbt_checked_mul a b = Outcome.exit EXIT_FAILURE d))
    ∧ (((∃ v, minimbt_checked_mul_fallback a b = Outcome.ret v) ↔ IsInt32 (a * b))
      ∧ (IsInt32 (a * b) → minimbt_checked_mul_fallback a b = Outcome.ret (a * b))
      ∧ (¬ IsInt32 (a * b) →
          ∃ d, minimbt_checked_mul_fallback a b = Outcome.exit EXIT_FAILURE d)) := by
  refine ⟨⟨⟨?_, fun h => ⟨_, minimbt_checked_mul_ret h⟩⟩, minimbt_checked_mul_ret,
      fun h => ⟨_, minimbt_checked_mul_exit h⟩⟩,
    ⟨⟨?_, fun h => ⟨_, minimbt_checked_mul_fallback_ret ha hb h⟩⟩,
      minimbt_checked_mul_fallback_ret ha hb,
      fun h => ⟨_, minimbt_checked_mul_fallback_exit ha hb h⟩⟩⟩
  · rintro ⟨v, hv⟩
    by_contra h
    rw [minimbt_checked_mul_exit h] at hv
    cases hv
  · rintro ⟨v, hv⟩
    by_contra h
    rw [minimbt_checked_mul_fallback_exit ha hb h] at hv
    cases hv

/-- Witness for C1: `46341 * -46340` is in range and is returned by both variants, while
`46341 * 46341` is out of range and ends the process in both variants -/
theorem minimbt_checked_mul_spec_witness :
    IsInt32 46341 ∧ IsInt32 (-46340)
      ∧ minimbt_checked_mul 46341 (-46340) = Outcome.ret (46341 * -46340)
      ∧ minimbt_checked_mul_fallback 46341 (-46340) = Outcome.ret (46341 * -46340)
      ∧ (∃ d, minimbt_checked_mul 46341 46341 = Outcome.exit EXIT_FAILURE d)
      ∧ (∃ d, minimbt_checked_mul_fallback 46341 46341 = Outcome.exit EXIT_FAILURE d) :=
  ⟨by decide, by decide,
    (minimbt_checked_mul_spec 46341 (-46340) (by decide) (by decide)).1.2.1 (by decide),
    (minimbt_checked_mul_spec 46341 (-46340) (by decide) (by decide)).2.2.1 (by decide),
    (minimbt_checked_mul_spec 46341 46341 (by decide) (by decide)).1.2.2 (by decide),
    (minimbt_checked_mul_spec 46341 46341 (by decide) (by decide)).2.2.2 (by decide)⟩

/-- C2: for 32-bit signed `a` and `b`, `minimbt_checked_add a b` (in both compile-time
variants) returns a value exactly when the exact sum `a + b` is a 32-bit signed integer, the
value returned is then `a + b` itself, and for every other pair the call ends the process with
`EXIT_FAILURE` and returns nothing. -/
theorem minimbt_checked_add_spec (a b : Int) (ha : IsInt32 a) (hb : IsInt32 b) :
    (((∃ v, minimbt_checked_add a b = Outcome.ret v) ↔ IsInt32 (a + b))
      ∧ (IsInt32 (a + b) → minimbt_checked_add a b = Outcome.ret (a + b))
      ∧ (¬ IsInt32 (a + b) → ∃ d, minimbt_checked_add a b = Outcome.exit EXIT_FAILURE d))
    ∧ (((∃ v, minimbt_checked_add_fallback a b = Outcome.ret v) ↔ IsInt32 (a + b))
      ∧ (IsInt32 (a + b) → minimbt_checked_add_fallback a b = Outcome.ret (a + b))
      ∧ (¬ IsInt32 (a + b) →
          ∃ d, minimbt_checked_add_fallback a b = Outcome.exit EXIT_FAILURE d)) := by
  refine ⟨⟨⟨?_, fun h => ⟨_, minimbt_checked_add_ret h⟩⟩, minimbt_checked_add_ret,
      fun h => ⟨_, minimbt_checked_add_exit h⟩⟩,
    ⟨⟨?_, fun h => ⟨_, minimbt_checked_add_fallback_ret ha hb h⟩⟩,
      minimbt_checked_add_fallback_ret ha hb,
      fun h => ⟨_, minimbt_checked_add_fallback_exit ha hb h⟩⟩⟩
  · rintro ⟨v, hv⟩
    by_contra h
    rw [minimbt_checked_add_exit h] at hv
    cases hv
  · rintro ⟨v, hv⟩
    by_contra h
    rw [minimbt_checked_add_fallback_exit ha hb h] at hv
    cases hv

/-- Witness for C2: `2147483647 + -1` is in range and is returned by both variants, while
`2147483647 + 1` is out of range and ends the process in both variants -/
theorem minimbt_checked_add_spec_witness :
    IsInt32 2147483647 ∧ IsInt32 (-1)
      ∧ minimbt_checked_add 2147483647 (-1) = Outcome.ret (2147483647 + -1)
      ∧ minimbt_checked_add_fallback 2147483647 (-1) = Outcome.ret (2147483647 + -1)
      ∧ (∃ d, minimbt_checked_add 2147483647 1 = Outcome.exit EXIT_FAILURE d)
      ∧ (∃ d, minimbt_checked_add_fallback 2147483647 1 = Outcome.exit EXIT_FAILURE d) :=
  ⟨by decide, by decide,
    (minimbt_checked_add_spec 2147483647 (-1) (by decide) (by decide)).1.2.1 (by decide),
    (minimbt_checked_add_spec 2147483647 (-1) (by decide) (by decide)).2.2.1 (by decide),
    (minimbt_checked_add_spec 2147483647 1 (by decide) (by decide)).1.2.2 (by decide),
    (minimbt_checked_add_spec 2147483647 1 (by decide) (by decide)).2.2.2 (by decide)⟩

/-- C3: for 32-bit signed `a` and `b`, `minimbt_checked_sub a b` (in both compile-time
variants) returns a value exactly when the exact difference `a - b` is a 32-bit signed
integer, the value returned is then `a - b` itself, and for every other pair (among them
`b = -2^31` with `0 ≤ a`) the call ends the process with `EXIT_FAILURE` and returns nothing. -/
theorem minimbt_checked_sub_spec (a b : Int) (ha : IsInt32 a) (hb : IsInt32 b) :
    (((∃ v, minimbt_checked_sub a b = Outcome.ret v) ↔ IsInt32 (a - b))
      ∧ (IsInt32 (a - b) → minimbt_checked_sub a b = Outcome.ret (a - b))
      ∧ (¬ IsInt32 (a - b) → ∃ d, minimbt_checked_sub a b = Outcome.exit EXIT_FAILURE d)
      ∧ (b = INT32_MIN → 0 ≤ a → ∃ d, minimbt_checked_sub a b = Outcome.exit EXIT_FAILURE d))
    ∧ (((∃ v, minimbt_checked_sub_fallback a b = Outcome.ret v) ↔ IsInt32 (a - b))
      ∧ (IsInt32 (a - b) → minimbt_checked_sub_fallback a b = Outcome.ret (a - b))
      ∧ (¬ IsInt32 (a - b) →
          ∃ d, minimbt_checked_sub_fallback a b = Outcome.exit EXIT_FAILURE d)
      ∧ (b = INT32_MIN → 0 ≤ a →
          ∃ d, minimbt_checked_sub_fallback a b = Outcome.exit EXIT_FAILURE d)) := by
  have hmin : b = INT32_MIN → 0 ≤ a → ¬ IsInt32 (a - b) := by
    intro e h0
    unfold IsInt32 INT32_MAX INT32_MIN
    unfold INT32_MIN at e
    omega
  refine ⟨⟨⟨?_, fun h => ⟨_, minimbt_checked_sub_ret h⟩⟩, minimbt_checked_sub_ret,
      fun h => ⟨_, minimbt_checked_sub_exit h⟩,
      fun e h0 => ⟨_, minimbt_checked_sub_exit (hmin e h0)⟩⟩,
    ⟨⟨?_, fun h => ⟨_, minimbt_checked_sub_fallback_ret ha hb h⟩⟩,
      minimbt_checked_sub_fallback_ret ha hb,
      fun h => ⟨_, minimbt_checked_sub_fallback_exit ha hb h⟩,
      fun e h0 => ⟨_, minimbt_checked_sub_fallback_exit ha hb (hmin e h0)⟩⟩⟩
  · rintro ⟨v, hv⟩
    by_contra h
    rw [minimbt_checked_sub_exit h] at hv
    cases hv
  · rintro ⟨v, hv⟩
    by_contra h
    rw [minimbt_checked_sub_fallback_exit ha hb h] at hv
    cases hv

/-- Witness for C3: `-1 - -2147483648` is in range and is returned by both variants, while
`0 - -2147483648` is out of range and ends the process in both variants -/
theorem minimbt_checked_sub_spec_witness :
    IsInt32 (-1) ∧ IsInt32 (-2147483648)
      ∧ minimbt_checked_sub (-1) (-2147483648) = Outcome.ret (-1 - -2147483648)
      ∧ minimbt_checked_sub_fallback (-1) (-2147483648) = Outcome.ret (-1 - -2147483648)
      ∧ (∃ d, minimbt_checked_sub 0 (-2147483648) = Outcome.exit EXIT_FAILURE d)
      ∧ (∃ d, minimbt_checked_sub_fallback 0 (-2147483648) = Outcome.exit EXIT_FAILURE d) :=
  ⟨by decide, by decide,
    (minimbt_checked_sub_spec (-1) (-2147483648) (by decide) (by decide)).1.2.1 (by decide),
    (minimbt_checked_sub_spec (-1) (-2147483648) (by decide) (by decide)).2.2.1 (by decide),
    (minimbt_checked_sub_spec 0 (-2147483648) (by decide) (by decide)).1.2.2.2 rfl (by decide),
    (minimbt_checked_sub_spec 0 (-2147483648) (by decide) (by decide)).2.2.2.2 rfl (by decide)⟩

/-! ## Checked division: theorems -/

theorem tmod_neg_left (a b : Int) : Int.tmod (-a) b = -(Int.tmod a b) := by
  rw [Int.tmod_def, Int.tmod_def, Int.neg_tdiv]
  ring

theorem tmod_bounds_of_nonneg {a b : Int} (ha : 0 ≤ a) (hb : b ≠ 0) :
    0 ≤ Int.tmod a b ∧ Int.tmod a b < |b| := by
  refine ⟨Int.tmod_nonneg b ha, ?_⟩
  rcases abs_cases b with ⟨e, h⟩ | ⟨e, h⟩
  · rw [e]
    exact Int.tmod_lt_of_pos a (by omega)
  · rw [e, ← Int.tmod_neg]
    exact Int.tmod_lt_of_pos a (by omega)

theorem tmod_bounds_of_nonpos {a b : Int} (ha : a ≤ 0) (hb : b ≠ 0) :
    Int.tmod a b ≤ 0 ∧ -|b| < Int.tmod a b := by
  have h := tmod_bounds_of_nonneg (a := -a) (by omega) hb
  rw [tmod_neg_left] at h
  omega

theorem abs_tmod_lt {a b : Int} (hb : b ≠ 0) : |Int.tmod a b| < |b| := by
  rw [abs_lt]
  rcases le_total 0 a with ha | ha
  · have h := tmod_bounds_of_nonneg ha hb
    constructor <;> omega
  · have h := tmod_bounds_of_nonpos ha hb
    have hb0 : 0 ≤ |b| := abs_nonneg b
    constructor <;> omega

theorem tmod_sign {a b : Int} (hb : b ≠ 0) :
    Int.tmod a b = 0 ∨ Int.sign (Int.tmod a b) = Int.sign a := by
  rcases lt_trichotomy a 0 with ha | ha | ha
  · have h := tmod_bounds_of_nonpos (le_of_lt ha) hb
    rcases eq_or_lt_of_le h.1 with e | l
    · exact Or.inl e
    · exact Or.inr (by rw [Int.sign_eq_neg_one_of_neg l, Int.sign_eq_neg_one_of_neg ha])
  · subst ha
    exact Or.inl (Int.zero_tmod b)
  · have h := tmod_bounds_of_nonneg (le_of_lt ha) hb
    rcases eq_or_lt_of_le h.1 with e | l
    · exact Or.inl e.symm
    · exact Or.inr (by rw [Int.sign_eq_one_of_pos l, Int.sign_eq_one_of_pos ha])

/-- Truncated division is determined by the division equation, the bound on the remainder
and the sign of the remainder. -/
theorem trunc_quotient_unique {a b q r q' r' : Int}
    (h : a = q * b + r) (hr : |r| < |b|) (hs : r = 0 ∨ Int.sign r = Int.sign a)
    (h' : a = q' * b + r') (hr' : |r'| < |b|) (hs' : r' = 0 ∨ Int.sign r' = Int.sign a) :
    q' = q := by
  have side : (0 ≤ r ∧ 0 ≤ r') ∨ (r ≤ 0 ∧ r' ≤ 0) := by
    rcases lt_trichotomy a 0 with ha | ha | ha
    · right
      rw [Int.sign_eq_neg_one_of_neg ha, Int.sign_eq_neg_one_iff_neg] at hs hs'
      constructor <;> omega
    · subst ha
      rw [Int.sign_zero, Int.sign_eq_zero_iff_zero] at hs hs'
      left
      constructor <;> omega
    · left
      rw [Int.sign_eq_one_of_pos ha, Int.sign_eq_one_iff_pos] at hs hs'
      constructor <;> omega
  have hd : (q' - q) * b = r - r' := by linarith
  rw [abs_lt] at hr hr'
  by_contra hne
  have hq : q' - q ≥ 1 ∨ q' - q ≤ -1 := by omega
  rcases abs_cases b with ⟨e, hb⟩ | ⟨e, hb⟩ <;> rw [e] at hr hr' <;>
    rcases hq with hq | hq
  · have : (q' - q - 1) * b ≥ 0 := mul_nonneg (by omega) hb
    rcases side with s | s <;> nlinarith
  · have : (-(q' - q) - 1) * b ≥ 0 := mul_nonneg (by omega) hb
    rcases side with s | s <;> nlinarith
  · have : (q' - q - 1) * (-b) ≥ 0 := mul_nonneg (by omega) (by omega)
    rcases side with s | s <;> nlinarith
  · have : (-(q' - q) - 1) * (-b) ≥ 0 := mul_nonneg (by omega) (by omega)
    rcases side with s | s <;> nlinarith

theorem isInt32_tdiv {a b : Int} (ha : IsInt32 a) (hb : b ≠ 0)
    (hov : ¬ (a = INT32_MIN ∧ b = -1)) : IsInt32 (Int.tdiv a b) := by
  unfold IsInt32 INT32_MIN INT32_MAX at *
  have hn := Int.natAbs_tdiv a b
  by_cases h1 : b = 1
  · subst h1
    rw [Int.tdiv_one]
    exact ha
  by_cases h2 : b = -1
  · subst h2
    have e : Int.tdiv a (-1) = -a := by
      rw [show (-1 : Int) = -(1 : Int) from rfl, Int.tdiv_neg, Int.tdiv_one]
    rw [e]
    omega
  · have hb2 : 2 ≤ b.natAbs := by omega
    have hle : a.natAbs / b.natAbs ≤ a.natAbs / 2 := Nat.div_le_div_left hb2 (by decide)
    have hdiv : (a.natAbs).div (b.natAbs) = a.natAbs / b.natAbs := rfl
    rw [hdiv] at hn
    omega

theorem minimbt_checked_div_ret {a b : Int} (ha : IsInt32 a) (hb : b ≠ 0)
    (hov : ¬ (a = INT32_MIN ∧ b = -1)) :
    minimbt_checked_div a b = Outcome.ret (Int.tdiv a b) := by
  unfold minimbt_checked_div
  rw [wrap32_of_isInt32 (isInt32_tdiv ha hb hov)]
  simp only [hb, if_false, Bool.and_eq_true, decide_eq_true_eq, hov]

theorem minimbt_checked_div_exit_zero (a : Int) :
    minimbt_checked_div a 0
      = Outcome.exit EXIT_FAILURE
          ("Divide by zero (" ++ fmt_d a ++ " / " ++ fmt_d 0 ++ ")\n") := by
  unfold minimbt_checked_div
  simp only [if_true]

theorem minimbt_checked_div_exit_overflow :
    minimbt_checked_div INT32_MIN (-1)
      = Outcome.exit EXIT_FAILURE
          ("Overflow dividing " ++ fmt_d INT32_MIN ++ " by " ++ fmt_d (-1) ++ "\n") := by
  decide

/-- C4: for 32-bit signed `a` and `b`, `minimbt_checked_div a b` ends the process without
returning a value exactly when `b = 0` or (`a = -2^31` and `b = -1`); it ends the process for
every `a` when `b = 0`, and on every other pair it returns a value. -/
theorem minimbt_checked_div_faults_iff (a b : Int) (ha : IsInt32 a) (_hb : IsInt32 b) :
    ((∃ s d, minimbt_checked_div a b = Outcome.exit s d)
        ↔ (b = 0 ∨ (a = INT32_MIN ∧ b = -1)))
      ∧ (b = 0 → ∃ d, minimbt_checked_div a b = Outcome.exit EXIT_FAILURE d)
      ∧ (a = INT32_MIN ∧ b = -1 →
          ∃ d, minimbt_checked_div a b = Outcome.exit EXIT_FAILURE d)
      ∧ (¬ (b = 0 ∨ (a = INT32_MIN ∧ b = -1)) →
          ∃ v, minimbt_checked_div a b = Outcome.ret v) := by
  have hz : b = 0 → ∃ d, minimbt_checked_div a b = Outcome.exit EXIT_FAILURE d := by
    intro e
    subst e
    exact ⟨_, minimbt_checked_div_exit_zero a⟩
  have ho : a = INT32_MIN ∧ b = -1 →
      ∃ d, minimbt_checked_div a b = Outcome.exit EXIT_FAILURE d := by
    rintro ⟨e1, e2⟩
    subst e1
    subst e2
    exact ⟨_, minimbt_checked_div_exit_overflow⟩
  refine ⟨⟨?_, ?_⟩, hz, ho, ?_⟩
  · rintro ⟨s, d, hx⟩
    by_contra hn
    rw [not_or] at hn
    rw [minimbt_checked_div_ret ha hn.1 hn.2] at hx
    cases hx
  · rintro (e | e)
    · exact ⟨_, hz e⟩
    · exact ⟨_, ho e⟩
  · intro hn
    rw [not_or] at hn
    exact ⟨_, minimbt_checked_div_ret ha hn.1 hn.2⟩

/-- Witness for C4 at `a = -2147483648`, `b = -1` -/
theorem minimbt_checked_div_faults_iff_witness :
    IsInt32 (-2147483648) ∧ IsInt32 (-1)
      ∧ ∃ d, minimbt_checked_div (-2147483648) (-1) = Outcome.exit EXIT_FAILURE d :=
  ⟨by decide, by decide,
    (minimbt_checked_div_faults_iff (-2147483648) (-1) (by decide) (by decide)).2.2.1
      ⟨rfl, rfl⟩⟩

/-- C5: for 32-bit signed `a` and `b` with `b ≠ 0` and not (`a = -2^31` and `b = -1`),
`minimbt_checked_div a b` returns the quotient `q` of `a` by `b` truncated toward zero: there
is `r` with `a = q * b + r`, `|r| < |b|` and `r` zero or of the sign of `a`, `q` is the only
integer for which such a remainder exists, and `q` is a 32-bit signed integer; and
`minimbt_checked_div (-7) 2` returns `-3`. -/
theorem minimbt_checked_div_truncates (a b : Int) (ha : IsInt32 a) (_hb : IsInt32 b)
    (hb0 : b ≠ 0) (hov : ¬ (a = INT32_MIN ∧ b = -1)) :
    (∃ q, minimbt_checked_div a b = Outcome.ret q
        ∧ IsInt32 q
        ∧ (∃ r, a = q * b + r ∧ |r| < |b| ∧ (r = 0 ∨ Int.sign r = Int.sign a))
        ∧ (∀ q' r', a = q' * b + r' → |r'| < |b| → (r' = 0 ∨ Int.sign r' = Int.sign a) →
            q' = q))
      ∧ minimbt_checked_div (-7) 2 = Outcome.ret (-3) := by
  refine ⟨⟨Int.tdiv a b, minimbt_checked_div_ret ha hb0 hov, isInt32_tdiv ha hb0 hov,
    ⟨Int.tmod a b, (Int.tdiv_add_tmod' a b).symm, abs_tmod_lt hb0, tmod_sign hb0⟩, ?_⟩, by decide⟩
  intro q' r' h' hr' hs'
  exact trunc_quotient_unique (Int.tdiv_add_tmod' a b).symm (abs_tmod_lt hb0) (tmod_sign hb0)
    h' hr' hs'

/-- Witness for C5 at `a = -2147483648`, `b = 3` -/
theorem minimbt_checked_div_truncates_witness :
    IsInt32 (-2147483648) ∧ IsInt32 3
      ∧ ∃ q, minimbt_checked_div (-2147483648) 3 = Outcome.ret q ∧ IsInt32 q :=
  ⟨by decide, by decide,
    match (minimbt_checked_div_truncates (-2147483648) 3 (by decide) (by decide) (by decide)
      (by decide)).1 with
    | ⟨q, h1, h2, _⟩ => ⟨q, h1, h2⟩⟩

/-! ## Safe allocation: theorems -/

theorem minimbt_create_array_eq (P : Platform) (A : Nat → Option Nat) (fuel n : Nat) (v : Int) :
    minimbt_create_array P A fuel n v
      = typed_constructor P P.sizeof_int32 "minimbt_create_array" A fuel n v := rfl

theorem minimbt_create_ptr_array_eq (P : Platform) (A : Nat → Option Nat) (fuel n : Nat)
    (init : Nat) :
    minimbt_create_ptr_array P A fuel n init
      = typed_constructor P P.sizeof_ptr "minimbt_create_ptr_array" A fuel n init := rfl

theorem minimbt_create_float_array_eq (P : Platform) (A : Nat → Option Nat) (fuel n : Nat)
    (v : Double) :
    minimbt_create_float_array P A fuel n v
      = typed_constructor P P.sizeof_double "minimbt_create_float_array" A fuel n v := rfl

theorem to_size_t_of_le (P : Platform) {x : Nat} (h : x ≤ P.SIZE_MAX) : P.to_size_t x = x := by
  unfold Platform.to_size_t
  exact Nat.mod_eq_of_lt (by omega)

theorem safe_multiply_size_ret (P : Platform) {count element_size : Nat}
    (h : count * element_size ≤ P.SIZE_MAX) :
    safe_multiply_size P count element_size = Outcome.ret (count * element_size) := by
  unfold safe_multiply_size
  by_cases hc : count = 0
  · simp [hc]
  · rw [if_neg hc]
    by_cases he : element_size = 0
    · subst he
      simp [Platform.to_size_t]
    · have hpos : 0 < element_size := Nat.pos_of_ne_zero he
      have hle : count ≤ P.SIZE_MAX / element_size := (Nat.le_div_iff_mul_le hpos).mpr h
      have hcnt : count ≤ P.SIZE_MAX :=
        le_trans (Nat.le_mul_of_pos_right count hpos) h
      have hg : ¬ (element_size > 0 ∧ count > P.SIZE_MAX / element_size) := by
        rintro ⟨_, h2⟩
        omega
      simp only [Bool.and_eq_true, decide_eq_true_eq, hg, if_false]
      rw [to_size_t_of_le P hcnt, to_size_t_of_le P h]

theorem safe_multiply_size_exit (P : Platform) {count element_size : Nat}
    (h : P.SIZE_MAX < count * element_size) :
    safe_multiply_size P count element_size
      = Outcome.exit EXIT_FAILURE
          ("Integer overflow calculating allocation size (" ++ toString count ++ " * "
            ++ toString element_size ++ ")\n") := by
  unfold safe_multiply_size
  have hc : count ≠ 0 := by
    rintro rfl
    simp at h
  have he : 0 < element_size := by
    rcases Nat.eq_zero_or_pos element_size with e | e
    · subst e
      simp at h
    · exact e
  have hgt : count > P.SIZE_MAX / element_size := (Nat.div_lt_iff_lt_mul he).mpr h
  have hg : element_size > 0 ∧ count > P.SIZE_MAX / element_size := ⟨he, hgt⟩
  rw [if_neg hc]
  simp only [Bool.and_eq_true, decide_eq_true_eq, hg, and_self, if_true]

theorem safe_multiply_size_ret_iff (P : Platform) (count element_size total : Nat) :
    safe_multiply_size P count element_size = Outcome.ret total
      ↔ count * element_size ≤ P.SIZE_MAX ∧ total = count * element_size := by
  constructor
  · intro h
    by_cases hle : count * element_size ≤ P.SIZE_MAX
    · rw [safe_multiply_size_ret P hle] at h
      cases h
      exact ⟨hle, rfl⟩
    · rw [safe_multiply_size_exit P (by omega)] at h
      cases h
  · rintro ⟨hle, rfl⟩
    exact safe_multiply_size_ret P hle

theorem fill_loop_replicate {α : Type} (v : α) (n : Nat) (hn : n < 4294967296)
    (addr size : Nat) :
    ∀ (fuel i : Nat), i ≤ n → n - i < fuel →
      fill_loop fuel n v i
          (some ⟨addr, size, List.replicate i (some v) ++ List.replicate (n - i) none⟩)
        = Outcome.ret (some ⟨addr, size, List.replicate n (some v)⟩) := by
  intro fuel
  induction fuel with
  | zero => intro i _ h; omega
  | succ fuel ih =>
    intro i hi hf
    unfold fill_loop
    by_cases hlt : i < n
    · rw [if_pos hlt]
      have hlen : i < (List.replicate i (some v) ++ List.replicate (n - i) none).length := by
        simp only [List.length_append, List.length_replicate]
        omega
      have hmod : (i + 1) % 4294967296 = i + 1 := Nat.mod_eq_of_lt (by omega)
      have hset : (List.replicate i (some v) ++ List.replicate (n - i) none).set i (some v)
          = List.replicate (i + 1) (some v) ++ List.replicate (n - (i + 1)) none := by
        rw [List.set_append_right _ _ (by simp)]
        have hsplit : n - i = (n - (i + 1)) + 1 := by omega
        rw [hsplit, List.replicate_succ, List.length_replicate, Nat.sub_self, List.set_cons_zero,
          List.replicate_succ', List.append_assoc]
        rfl
      unfold store
      simp only [hlen, if_true, Outcome.bind, hmod, hset]
      exact ih (i + 1) (by omega) (by omega)
    · have hin : i = n := by omega
      subst hin
      simp

theorem fill_loop_ret_some {α : Type} (v : α) (n : Nat) :
    ∀ (fuel i : Nat) (arr p : Ptr α), arr ≠ none →
      fill_loop fuel n v i arr = Outcome.ret p → p ≠ none := by
  intro fuel
  induction fuel with
  | zero =>
    intro i arr p _ h
    unfold fill_loop at h
    cases h
  | succ fuel ih =>
    intro i arr p harr h
    unfold fill_loop at h
    by_cases hlt : i < n
    · rw [if_pos hlt] at h
      cases arr with
      | none => exact absurd rfl harr
      | some b =>
        unfold store at h
        by_cases hlen : i < b.slots.length
        · simp only [hlen, if_true, Outcome.bind] at h
          exact ih _ _ p (by simp) h
        · simp only [hlen, if_false, Outcome.bind] at h
          cases h
    · rw [if_neg hlt] at h
      cases h
      exact harr

theorem typed_constructor_zero {α : Type} (P : Platform) (element_size : Nat) (name : String)
    (A : Nat → Option Nat) (fuel : Nat) (v : α) :
    typed_constructor P element_size name A fuel 0 v = ⟨Outcome.ret none, []⟩ := by
  simp [typed_constructor, safe_multiply_size, Run.bind, Run.lift, Run.pure]

theorem typed_constructor_overflow {α : Type} (P : Platform) (element_size : Nat)
    (name : String) (A : Nat → Option Nat) (fuel n : Nat) (v : α)
    (h : P.SIZE_MAX < n * element_size) :
    typed_constructor P element_size name A fuel n v
      = ⟨Outcome.exit EXIT_FAILURE
          ("Integer overflow calculating allocation size (" ++ toString n ++ " * "
            ++ toString element_size ++ ")\n"), []⟩ := by
  simp [typed_constructor, safe_multiply_size_exit P h, Run.bind, Run.lift]

theorem typed_constructor_refused {α : Type} (P : Platform) (element_size : Nat)
    (name : String) (A : Nat → Option Nat) (fuel n : Nat) (v : α)
    (hn : n ≠ 0) (he : 0 < element_size) (h : n * element_size ≤ P.SIZE_MAX)
    (hA : A (n * element_size) = none) :
    typed_constructor P element_size name A fuel n v
      = ⟨Outcome.exit EXIT_FAILURE ("Allocation failed: " ++ name ++ "\n"),
          [n * element_size]⟩ := by
  have hpos : n * element_size ≠ 0 := Nat.mul_ne_zero hn (by omega)
  simp [typed_constructor, safe_multiply_size_ret P h, Run.bind, Run.lift, Run.pure, hpos,
    sys_malloc, hA, allocation_panic]

theorem typed_constructor_filled {α : Type} (P : Platform) (element_size : Nat)
    (name : String) (A : Nat → Option Nat) (fuel n : Nat) (v : α) (addr : Nat)
    (hn : n ≠ 0) (hn32 : n < 4294967296) (hfuel : n < fuel) (he : 0 < element_size)
    (h : n * element_size ≤ P.SIZE_MAX) (hA : A (n * element_size) = some addr) :
    typed_constructor P element_size name A fuel n v
      = ⟨Outcome.ret (some ⟨addr, n * element_size, List.replicate n (some v)⟩),
          [n * element_size]⟩ := by
  have hpos : n * element_size ≠ 0 := Nat.mul_ne_zero hn (by omega)
  have hfill := fill_loop_replicate v n hn32 addr (n * element_size) fuel 0 (Nat.zero_le n)
    (by omega)
  simp only [List.replicate_zero, List.nil_append, Nat.sub_zero] at hfill
  simp [typed_constructor, safe_multiply_size_ret P h, Run.bind, Run.lift, Run.pure, hpos,
    sys_malloc, hA, Nat.mul_div_cancel _ he, hfill]

theorem typed_constructor_null_iff {α : Type} (P : Platform) (element_size : Nat)
    (name : String) (A : Nat → Option Nat) (fuel n : Nat) (v : α) (he : 0 < element_size)
    (p : Ptr α) (hp : (typed_constructor P element_size name A fuel n v).outcome = Outcome.ret p) :
    p = none ↔ n = 0 := by
  constructor
  · intro hnone
    by_contra hn
    subst hnone
    by_cases hle : n * element_size ≤ P.SIZE_MAX
    · have hpos : n * element_size ≠ 0 := Nat.mul_ne_zero hn (by omega)
      cases hA : A (n * element_size) with
      | none =>
        rw [typed_constructor_refused P element_size name A fuel n v hn he hle hA] at hp
        cases hp
      | some addr =>
        simp [typed_constructor, safe_multiply_size_ret P hle, Run.bind, Run.lift, Run.pure,
          hpos, sys_malloc, hA] at hp
        exact fill_loop_ret_some v n fuel 0 _ none (by simp) hp rfl
    · rw [typed_constructor_overflow P element_size name A fuel n v (by omega)] at hp
      cases hp
  · rintro rfl
    rw [typed_constructor_zero] at hp
    cases hp
    rfl

theorem minimbt_malloc_zero (P : Platform) (A : Nat → Option Nat) :
    minimbt_malloc P A 0 = ⟨Outcome.ret none, []⟩ := by
  simp [minimbt_malloc, Run.pure]

theorem minimbt_malloc_refused (P : Platform) (A : Nat → Option Nat) (sz : Nat)
    (hsz : sz ≠ 0) (hA : A (P.to_size_t sz) = none) :
    minimbt_malloc P A sz
      = ⟨Outcome.exit EXIT_FAILURE "Allocation failed: minimbt_malloc\n", [P.to_size_t sz]⟩ := by
  simp only [minimbt_malloc, hsz, if_false, sys_malloc, hA, Run.bind, Run.lift, Run.pure,
    allocation_panic, Option.map_none', Option.isNone_none, if_true, List.append_nil]
  rfl

theorem minimbt_malloc_granted (P : Platform) (A : Nat → Option Nat) (sz addr : Nat)
    (hsz : sz ≠ 0) (hA : A (P.to_size_t sz) = some addr) :
    minimbt_malloc P A sz
      = ⟨Outcome.ret (some ⟨addr, P.to_size_t sz, List.replicate (P.to_size_t sz) none⟩),
          [P.to_size_t sz]⟩ := by
  simp [minimbt_malloc, hsz, sys_malloc, hA, Run.bind, Run.lift, Run.pure]

theorem minimbt_malloc_null_iff (P : Platform) (A : Nat → Option Nat) (sz : Nat)
    (p : Ptr Nat) (hp : (minimbt_malloc P A sz).outcome = Outcome.ret p) :
    p = none ↔ sz = 0 := by
  constructor
  · intro hnone
    by_contra hsz
    subst hnone
    cases hA : A (P.to_size_t sz) with
    | none =>
      rw [minimbt_malloc_refused P A sz hsz hA] at hp
      cases hp
    | some addr =>
      rw [minimbt_malloc_granted P A sz addr hsz hA] at hp
      cases hp
  · rintro rfl
    rw [minimbt_malloc_zero] at hp
    cases hp
    rfl

/-- C6: `safe_multiply_size P count element_size` ends the process exactly when the exact
product `count * element_size` exceeds `SIZE_MAX`, and otherwise returns exactly
`count * element_size`; when the product for a typed constructor exceeds `SIZE_MAX`, the
constructor ends the process and has made no call to the system allocator. -/
theorem safe_multiply_size_spec (P : Platform) (count element_size : Nat) :
    ((∃ s d, safe_multiply_size P count element_size = Outcome.exit s d)
        ↔ P.SIZE_MAX < count * element_size)
      ∧ (P.SIZE_MAX < count * element_size →
          ∃ d, safe_multiply_size P count element_size = Outcome.exit EXIT_FAILURE d)
      ∧ (count * element_size ≤ P.SIZE_MAX →
          safe_multiply_size P count element_size = Outcome.ret (count * element_size))
      ∧ (∀ (A : Nat → Option Nat) (fuel : Nat) (v : Int),
          P.SIZE_MAX < count * P.sizeof_int32 →
          (∃ d, (minimbt_create_array P A fuel count v).outcome = Outcome.exit EXIT_FAILURE d)
            ∧ (minimbt_create_array P A fuel count v).mallocs = [])
      ∧ (∀ (A : Nat → Option Nat) (fuel : Nat) (init : Nat),
          P.SIZE_MAX < count * P.sizeof_ptr →
          (∃ d, (minimbt_create_ptr_array P A fuel count init).outcome
              = Outcome.exit EXIT_FAILURE d)
            ∧ (minimbt_create_ptr_array P A fuel count init).mallocs = [])
      ∧ (∀ (A : Nat → Option Nat) (fuel : Nat) (v : Double),
          P.SIZE_MAX < count * P.sizeof_double →
          (∃ d, (minimbt_create_float_array P A fuel count v).outcome
              = Outcome.exit EXIT_FAILURE d)
            ∧ (minimbt_create_float_array P A fuel count v).mallocs = []) := by
  refine ⟨⟨?_, fun h => ⟨_, _, safe_multiply_size_exit P h⟩⟩,
    fun h => ⟨_, safe_multiply_size_exit P h⟩, safe_multiply_size_ret P, ?_, ?_, ?_⟩
  · rintro ⟨s, d, hx⟩
    by_contra hn
    rw [safe_multiply_size_ret P (by omega)] at hx
    cases hx
  · intro A fuel v h
    rw [minimbt_create_array_eq, typed_constructor_overflow P _ _ A fuel count v h]
    exact ⟨⟨_, rfl⟩, rfl⟩
  · intro A fuel v h
    rw [minimbt_create_ptr_array_eq, typed_constructor_overflow P _ _ A fuel count v h]
    exact ⟨⟨_, rfl⟩, rfl⟩
  · intro A fuel v h
    rw [minimbt_create_float_array_eq, typed_constructor_overflow P _ _ A fuel count v h]
    exact ⟨⟨_, rfl⟩, rfl⟩

/-- Witness for C6 on a platform with a 16-bit `size_t`: 20000 elements of 4 bytes -/
theorem safe_multiply_size_spec_witness :
    (⟨16, 4, 2, 8⟩ : Platform).SIZE_MAX < 20000 * 4
      ∧ (∃ d, safe_multiply_size ⟨16, 4, 2, 8⟩ 20000 4 = Outcome.exit EXIT_FAILURE d)
      ∧ (minimbt_create_array ⟨16, 4, 2, 8⟩ (fun _ => some 4096) 0 20000 7).mallocs = [] :=
  ⟨by decide,
    (safe_multiply_size_spec ⟨16, 4, 2, 8⟩ 20000 4).2.1 (by decide),
    ((safe_multiply_size_spec ⟨16, 4, 2, 8⟩ 20000 4).2.2.2.1 (fun _ => some 4096) 0 7
      (by decide)).2⟩

/-- C7: for each typed constructor, for every `n > 0` and every fill value `v`, when the size
guard passes (`safe_multiply_size` returns `total`) and the allocator grants the request
(`A total = some addr`), the constructor makes one allocator request, of exactly
`n * element_size` bytes, and returns the block at `addr` whose `n` slots all hold `v`. -/
theorem typed_constructors_fill (P : Platform) (hP : P.WellFormed) (A : Nat → Option Nat)
    (fuel n total addr : Nat) (hn0 : 0 < n) (hn32 : n < 4294967296) (hfuel : n < fuel)
    (hA : A total = some addr) :
    (∀ v : Int, safe_multiply_size P n P.sizeof_int32 = Outcome.ret total →
        total = n * P.sizeof_int32
          ∧ (minimbt_create_array P A fuel n v).mallocs = [n * P.sizeof_int32]
          ∧ (minimbt_create_array P A fuel n v).outcome
              = Outcome.ret (some ⟨addr, n * P.sizeof_int32, List.replicate n (some v)⟩))
      ∧ (∀ init : Nat, safe_multiply_size P n P.sizeof_ptr = Outcome.ret total →
        total = n * P.sizeof_ptr
          ∧ (minimbt_create_ptr_array P A fuel n init).mallocs = [n * P.sizeof_ptr]
          ∧ (minimbt_create_ptr_array P A fuel n init).outcome
              = Outcome.ret (some ⟨addr, n * P.sizeof_ptr, List.replicate n (some init)⟩))
      ∧ (∀ v : Double, safe_multiply_size P n P.sizeof_double = Outcome.ret total →
        total = n * P.sizeof_double
          ∧ (minimbt_create_float_array P A fuel n v).mallocs = [n * P.sizeof_double]
          ∧ (minimbt_create_float_array P A fuel n v).outcome
              = Outcome.ret (some ⟨addr, n * P.sizeof_double, List.replicate n (some v)⟩)) := by
  obtain ⟨h1, h2, h3⟩ := hP
  refine ⟨?_, ?_, ?_⟩
  · intro v hg
    obtain ⟨hle, rfl⟩ := (safe_multiply_size_ret_iff P _ _ _).mp hg
    rw [minimbt_create_array_eq,
      typed_constructor_filled P _ _ A fuel n v addr (by omega) hn32 hfuel h1 hle hA]
    exact ⟨rfl, rfl, rfl⟩
  · intro v hg
    obtain ⟨hle, rfl⟩ := (safe_multiply_size_ret_iff P _ _ _).mp hg
    rw [minimbt_create_ptr_array_eq,
      typed_constructor_filled P _ _ A fuel n v addr (by omega) hn32 hfuel h2 hle hA]
    exact ⟨rfl, rfl, rfl⟩
  · intro v hg
    obtain ⟨hle, rfl⟩ := (safe_multiply_size_ret_iff P _ _ _).mp hg
    rw [minimbt_create_float_array_eq,
      typed_constructor_filled P _ _ A fuel n v addr (by omega) hn32 hfuel h3 hle hA]
    exact ⟨rfl, rfl, rfl⟩

/-- Witness for C7 on `rv64`: three `int32_t` slots filled with `7` -/
theorem typed_constructors_fill_witness :
    rv64.WellFormed ∧ safe_multiply_size rv64 3 rv64.sizeof_int32 = Outcome.ret 12
      ∧ (minimbt_create_array rv64 (fun _ => some 4096) 4 3 7).mallocs = [3 * rv64.sizeof_int32]
      ∧ (minimbt_create_array rv64 (fun _ => some 4096) 4 3 7).outcome
          = Outcome.ret (some ⟨4096, 3 * rv64.sizeof_int32, List.replicate 3 (some 7)⟩) :=
  ⟨by decide, by decide,
    ((typed_constructors_fill rv64 (by decide) (fun _ => some 4096) 4 3 12 4096 (by decide)
      (by decide) (by decide) rfl).1 7 (by decide)).2⟩

/-- C8: for every fill value, each typed constructor called with count `0`, and
`minimbt_malloc` called with size `0`, returns the null pointer, does not end the process,
and makes no call to the system allocator. -/
theorem zero_count_returns_null (P : Platform) (A : Nat → Option Nat) (fuel : Nat) :
    (∀ v : Int, minimbt_create_array P A fuel 0 v = ⟨Outcome.ret none, []⟩)
      ∧ (∀ init : Nat, minimbt_create_ptr_array P A fuel 0 init = ⟨Outcome.ret none, []⟩)
      ∧ (∀ v : Double, minimbt_create_float_array P A fuel 0 v = ⟨Outcome.ret none, []⟩)
      ∧ minimbt_malloc P A 0 = ⟨Outcome.ret none, []⟩ := by
  refine ⟨?_, ?_, ?_, minimbt_malloc_zero P A⟩
  · intro v
    rw [minimbt_create_array_eq, typed_constructor_zero]
  · intro v
    rw [minimbt_create_ptr_array_eq, typed_constructor_zero]
  · intro v
    rw [minimbt_create_float_array_eq, typed_constructor_zero]

/-- C9: for `minimbt_malloc` and the three typed constructors, when the size or count `n` is
not zero and the system allocator refuses the request made to it, the call ends the process
with the non-zero status `EXIT_FAILURE` after the diagnostic `Allocation failed: ` followed
by the name of the entry point, and does not return; and a call that returns a pointer
returns the null pointer exactly when `n = 0`. -/
theorem allocation_failure_is_fatal (P : Platform) (hP : P.WellFormed)
    (A : Nat → Option Nat) (fuel n : Nat) :
    EXIT_FAILURE ≠ 0
      ∧ (n ≠ 0 → A (P.to_size_t n) = none →
          minimbt_malloc P A n
            = ⟨Outcome.exit EXIT_FAILURE "Allocation failed: minimbt_malloc\n",
                [P.to_size_t n]⟩)
      ∧ (∀ p, (minimbt_malloc P A n).outcome = Outcome.ret p → (p = none ↔ n = 0))
      ∧ (∀ (v : Int) (total : Nat), n ≠ 0 →
          safe_multiply_size P n P.sizeof_int32 = Outcome.ret total → A total = none →
          minimbt_create_array P A fuel n v
            = ⟨Outcome.exit EXIT_FAILURE "Allocation failed: minimbt_create_array\n", [total]⟩)
      ∧ (∀ (v : Int) p, (minimbt_create_array P A fuel n v).outcome = Outcome.ret p →
          (p = none ↔ n = 0))
      ∧ (∀ (init : Nat) (total : Nat), n ≠ 0 →
          safe_multiply_size P n P.sizeof_ptr = Outcome.ret total → A total = none →
          minimbt_create_ptr_array P A fuel n init
            = ⟨Outcome.exit EXIT_FAILURE "Allocation failed: minimbt_create_ptr_array\n",
                [total]⟩)
      ∧ (∀ (init : Nat) p, (minimbt_create_ptr_array P A fuel n init).outcome = Outcome.ret p →
          (p = none ↔ n = 0))
      ∧ (∀ (v : Double) (total : Nat), n ≠ 0 →
          safe_multiply_size P n P.sizeof_double = Outcome.ret total → A total = none →
          minimbt_create_float_array P A fuel n v
            = ⟨Outcome.exit EXIT_FAILURE "Allocation failed: minimbt_create_float_array\n",
                [total]⟩)
      ∧ (∀ (v : Double) p, (minimbt_create_float_array P A fuel n v).outcome = Outcome.ret p →
          (p = none ↔ n = 0)) := by
  obtain ⟨h1, h2, h3⟩ := hP
  refine ⟨by decide, minimbt_malloc_refused P A n, minimbt_malloc_null_iff P A n,
    ?_, ?_, ?_, ?_, ?_, ?_⟩
  · intro v total hn hg hA
    obtain ⟨hle, rfl⟩ := (safe_multiply_size_ret_iff P _ _ _).mp hg
    rw [minimbt_create_array_eq, typed_constructor_refused P _ _ A fuel n v hn h1 hle hA]
    rfl
  · intro v p hp
    rw [minimbt_create_array_eq] at hp
    exact typed_constructor_null_iff P _ _ A fuel n v h1 p hp
  · intro v total hn hg hA
    obtain ⟨hle, rfl⟩ := (safe_multiply_size_ret_iff P _ _ _).mp hg
    rw [minimbt_create_ptr_array_eq, typed_constructor_refused P _ _ A fuel n v hn h2 hle hA]
    rfl
  · intro v p hp
    rw [minimbt_create_ptr_array_eq] at hp
    exact typed_constructor_null_iff P _ _ A fuel n v h2 p hp
  · intro v total hn hg hA
    obtain ⟨hle, rfl⟩ := (safe_multiply_size_ret_iff P _ _ _).mp hg
    rw [minimbt_create_float_array_eq, typed_constructor_refused P _ _ A fuel n v hn h3 hle hA]
    rfl
  · intro v p hp
    rw [minimbt_create_float_array_eq] at hp
    exact typed_constructor_null_iff P _ _ A fuel n v h3 p hp

/-- Witness for C9 on `rv64` with an allocator that refuses every request -/
theorem allocation_failure_is_fatal_witness :
    rv64.WellFormed
      ∧ minimbt_malloc rv64 (fun _ => none) 16
          = ⟨Outcome.exit EXIT_FAILURE "Allocation failed: minimbt_malloc\n", [16]⟩
      ∧ minimbt_create_float_array rv64 (fun _ => none) 3 2 Double.nan
          = ⟨Outcome.exit EXIT_FAILURE "Allocation failed: minimbt_create_float_array\n",
              [16]⟩ :=
  ⟨by decide,
    (allocation_failure_is_fatal rv64 (by decide) (fun _ => none) 3 16).2.1 (by decide) rfl,
    (allocation_failure_is_fatal rv64 (by decide) (fun _ => none) 3 2).2.2.2.2.2.2.2.1
      Double.nan 16 (by decide) (by decide) rfl⟩

/-! ## Float to integer: theorems -/

theorem minimbt_int_of_float_in_range {q : ℚ} (h1 : (-2147483648 : ℚ) ≤ q)
    (h2 : q ≤ 2147483647) :
    minimbt_int_of_float (Double.fin q) = Outcome.ret (truncQ q) ∧ IsInt32 (truncQ q) := by
  have hr : IsInt32 (truncQ q) := by
    unfold IsInt32 INT32_MIN INT32_MAX
    rcases le_total 0 q with h0 | h0
    · rw [truncQ_of_nonneg h0]
      have hf : (0 : Int) ≤ ⌊q⌋ := Int.floor_nonneg.mpr h0
      have hle : ((⌊q⌋ : Int) : ℚ) ≤ 2147483647 := le_trans (Int.floor_le q) h2
      have hle' : ⌊q⌋ ≤ (2147483647 : Int) := by exact_mod_cast hle
      omega
    · rw [truncQ_of_nonpos h0]
      have hc : ⌈q⌉ ≤ (0 : Int) := Int.ceil_le.mpr (by simpa using h0)
      have hge : (-2147483648 : ℚ) ≤ ((⌈q⌉ : Int) : ℚ) := le_trans h1 (Int.le_ceil q)
      have hge' : (-2147483648 : Int) ≤ ⌈q⌉ := by exact_mod_cast hge
      omega
  refine ⟨?_, hr⟩
  have g1 : ¬ ((2147483647 : ℚ) < q) := not_lt.mpr h2
  have g2 : ¬ (q < (-2147483648 : ℚ)) := not_lt.mpr h1
  simp [minimbt_int_of_float, isnan, Double.gt, Double.lt, double_of_int32, INT32_MAX,
    INT32_MIN, int32_of_double, g1, g2, hr]

theorem minimbt_int_of_float_out_of_range {q : ℚ}
    (h : q < (-2147483648 : ℚ) ∨ (2147483647 : ℚ) < q) :
    minimbt_int_of_float (Double.fin q) = Outcome.ret 0 := by
  rcases h with h | h
  · simp [minimbt_int_of_float, isnan, Double.gt, Double.lt, double_of_int32, INT32_MAX,
      INT32_MIN, h]
  · simp [minimbt_int_of_float, isnan, Double.gt, Double.lt, double_of_int32, INT32_MAX,
      INT32_MIN, h]

/-- C10, as the code has it: `minimbt_int_of_float f` returns `f` truncated toward zero
(the floor of a non-negative value, the ceiling of a negative one), a 32-bit signed integer,
whenever `f` is finite and `f` itself lies in `[-2^31, 2^31 - 1]`; it returns `0` when `f` is
NaN, an infinity, or a finite value below `-2^31` or above `2^31 - 1`; in particular it
returns `0` on NaN and on `10^300`, `3` on `3.9` and `-3` on `-3.9`. -/
theorem minimbt_int_of_float_spec :
    minimbt_int_of_float Double.nan = Outcome.ret 0
      ∧ minimbt_int_of_float Double.posInf = Outcome.ret 0
      ∧ minimbt_int_of_float Double.negInf = Outcome.ret 0
      ∧ (∀ q : ℚ, (-2147483648 : ℚ) ≤ q → q ≤ 2147483647 →
          minimbt_int_of_float (Double.fin q) = Outcome.ret (if 0 ≤ q then ⌊q⌋ else ⌈q⌉)
            ∧ IsInt32 (if 0 ≤ q then ⌊q⌋ else ⌈q⌉))
      ∧ (∀ q : ℚ, q < (-2147483648 : ℚ) ∨ (2147483647 : ℚ) < q →
          minimbt_int_of_float (Double.fin q) = Outcome.ret 0)
      ∧ minimbt_int_of_float (Double.fin (10 ^ 300)) = Outcome.ret 0
      ∧ minimbt_int_of_float (Double.fin (39 / 10)) = Outcome.ret 3
      ∧ minimbt_int_of_float (Double.fin (-39 / 10)) = Outcome.ret (-3) := by
  have key : ∀ q : ℚ, (-2147483648 : ℚ) ≤ q → q ≤ 2147483647 →
      minimbt_int_of_float (Double.fin q) = Outcome.ret (if 0 ≤ q then ⌊q⌋ else ⌈q⌉)
        ∧ IsInt32 (if 0 ≤ q then ⌊q⌋ else ⌈q⌉) := by
    intro q h1 h2
    have h := minimbt_int_of_float_in_range h1 h2
    by_cases h0 : 0 ≤ q
    · rw [if_pos h0, ← truncQ_of_nonneg h0]
      exact h
    · rw [if_neg h0, ← truncQ_of_nonpos (le_of_lt (not_le.mp h0))]
      exact h
  refine ⟨by decide, by decide, by decide, key, fun q => minimbt_int_of_float_out_of_range,
    minimbt_int_of_float_out_of_range (Or.inr (by norm_num)), ?_, ?_⟩
  · have h := (key (39 / 10) (by norm_num) (by norm_num)).1
    rw [if_pos (by norm_num)] at h
    rw [h, show ⌊(39 / 10 : ℚ)⌋ = 3 from Int.floor_eq_iff.mpr (by norm_num)]
  · have h := (key (-39 / 10) (by norm_num) (by norm_num)).1
    rw [if_neg (by norm_num)] at h
    rw [h, show ⌈(-39 / 10 : ℚ)⌉ = -3 from Int.ceil_eq_iff.mpr (by norm_num)]

/-- Witness for C10 (amended) at `f = 2147483647`, the largest value not clamped -/
theorem minimbt_int_of_float_spec_witness :
    minimbt_int_of_float (Double.fin 2147483647) = Outcome.ret 2147483647 := by
  have h := (minimbt_int_of_float_spec.2.2.2.1 2147483647 (by norm_num) (by norm_num)).1
  rw [if_pos (by norm_num)] at h
  rw [h, show ⌊(2147483647 : ℚ)⌋ = 2147483647 from Int.floor_eq_iff.mpr (by norm_num)]

/-- C10 as stated fails at `f = 2147483647.5`: the value truncated toward zero is
`2147483647`, a 32-bit signed integer, yet the call returns `0`. -/
theorem minimbt_int_of_float_counterexample :
    ⌊(4294967295 / 2 : ℚ)⌋ = 2147483647
      ∧ IsInt32 ⌊(4294967295 / 2 : ℚ)⌋
      ∧ minimbt_int_of_float (Double.fin (4294967295 / 2)) = Outcome.ret 0
      ∧ minimbt_int_of_float (Double.fin (4294967295 / 2))
          ≠ Outcome.ret ⌊(4294967295 / 2 : ℚ)⌋ := by
  have hf : ⌊(4294967295 / 2 : ℚ)⌋ = 2147483647 := Int.floor_eq_iff.mpr (by norm_num)
  have h0 : minimbt_int_of_float (Double.fin (4294967295 / 2)) = Outcome.ret 0 :=
    minimbt_int_of_float_out_of_range (Or.inr (by norm_num))
  refine ⟨hf, ?_, h0, ?_⟩
  · rw [hf]
    decide
  · rw [hf, h0]
    decide

/-! ## Floor and widening: theorems -/

theorem truncQ_intCast (z : Int) : truncQ (z : ℚ) = z := by
  rcases le_total 0 z with h | h
  · rw [truncQ_of_nonneg (by exact_mod_cast h), Int.floor_intCast]
  · rw [truncQ_of_nonpos (by exact_mod_cast h), Int.ceil_intCast]

theorem minimbt_floor_in_range {q : ℚ} (h : IsInt32 ⌊q⌋) :
    minimbt_floor (Double.fin q) = Outcome.ret ⌊q⌋ := by
  have h' := h
  unfold IsInt32 INT32_MIN INT32_MAX at h'
  have g1 : ¬ ((2147483647 : ℚ) < ((⌊q⌋ : Int) : ℚ)) := by
    rw [not_lt]
    exact_mod_cast h'.2
  have g2 : ¬ (((⌊q⌋ : Int) : ℚ) < (-2147483648 : ℚ)) := by
    rw [not_lt]
    exact_mod_cast h'.1
  simp [minimbt_floor, floor, isnan, Double.gt, Double.lt, double_of_int32, INT32_MAX,
    INT32_MIN, int32_of_double, g1, g2, truncQ_intCast, h]

theorem minimbt_floor_out_of_range {q : ℚ} (h : ¬ IsInt32 ⌊q⌋) :
    minimbt_floor (Double.fin q) = Outcome.ret 0 := by
  unfold IsInt32 INT32_MIN INT32_MAX at h
  have hc : ⌊q⌋ < -2147483648 ∨ 2147483647 < ⌊q⌋ := by omega
  rcases hc with hc | hc
  · have g : ((⌊q⌋ : Int) : ℚ) < (-2147483648 : ℚ) := by exact_mod_cast hc
    simp [minimbt_floor, floor, isnan, Double.gt, Double.lt, double_of_int32, INT32_MAX,
      INT32_MIN, g]
  · have g : (2147483647 : ℚ) < ((⌊q⌋ : Int) : ℚ) := by exact_mod_cast hc
    simp [minimbt_floor, floor, isnan, Double.gt, Double.lt, double_of_int32, INT32_MAX,
      INT32_MIN, g]

/-- C11: `minimbt_floor f` returns `0` when `f` is NaN (and when `f` is an infinity); for a
finite `f` of value `q` it returns the greatest integer `≤ q` whenever that integer is a
32-bit signed integer, and `0` whenever that integer is outside `[-2^31, 2^31 - 1]`; in
particular it returns `-3` on `-2.5` and `2` on `2.5`. -/
theorem minimbt_floor_spec :
    minimbt_floor Double.nan = Outcome.ret 0
      ∧ minimbt_floor Double.posInf = Outcome.ret 0
      ∧ minimbt_floor Double.negInf = Outcome.ret 0
      ∧ (∀ q : ℚ, ((⌊q⌋ : Int) : ℚ) ≤ q ∧ ∀ z : Int, (z : ℚ) ≤ q → z ≤ ⌊q⌋)
      ∧ (∀ q : ℚ, IsInt32 ⌊q⌋ → minimbt_floor (Double.fin q) = Outcome.ret ⌊q⌋)
      ∧ (∀ q : ℚ, ¬ IsInt32 ⌊q⌋ → minimbt_floor (Double.fin q) = Outcome.ret 0)
      ∧ minimbt_floor (Double.fin (-5 / 2)) = Outcome.ret (-3)
      ∧ minimbt_floor (Double.fin (5 / 2)) = Outcome.ret 2 := by
  have e1 : ⌊(-5 / 2 : ℚ)⌋ = -3 := Int.floor_eq_iff.mpr (by norm_num)
  have e2 : ⌊(5 / 2 : ℚ)⌋ = 2 := Int.floor_eq_iff.mpr (by norm_num)
  refine ⟨by decide, by decide, by decide, fun q => ⟨Int.floor_le q, fun z hz => Int.le_floor.mpr hz⟩,
    fun q => minimbt_floor_in_range, fun q => minimbt_floor_out_of_range, ?_, ?_⟩
  · have h := minimbt_floor_in_range (q := -5 / 2) (by rw [e1]; decide)
    rw [e1] at h
    exact h
  · have h := minimbt_floor_in_range (q := 5 / 2) (by rw [e2]; decide)
    rw [e2] at h
    exact h

/-- Witness for C11 at `f = 2147483647.5`, whose floor `2147483647` is the largest value
returned -/
theorem minimbt_floor_spec_witness :
    minimbt_floor (Double.fin (4294967295 / 2)) = Outcome.ret 2147483647 := by
  have e : ⌊(4294967295 / 2 : ℚ)⌋ = 2147483647 := Int.floor_eq_iff.mpr (by norm_num)
  have h := minimbt_floor_spec.2.2.2.2.1 (4294967295 / 2) (by rw [e]; decide)
  rw [e] at h
  exact h

theorem isBinary64_of_isInt32 {i : Int} (hi : IsInt32 i) : IsBinary64 (i : ℚ) := by
  unfold IsInt32 INT32_MIN INT32_MAX at hi
  refine ⟨i, 0, ?_, by decide, by decide, by simp⟩
  rw [abs_lt]
  constructor <;> omega

theorem minimbt_int_of_float_intCast {i : Int} (hi : IsInt32 i) :
    minimbt_int_of_float (Double.fin (i : ℚ)) = Outcome.ret i := by
  have hi' := hi
  unfold IsInt32 INT32_MIN INT32_MAX at hi'
  have h := (minimbt_int_of_float_in_range (q := (i : ℚ)) (by exact_mod_cast hi'.1)
    (by exact_mod_cast hi'.2)).1
  rw [truncQ_intCast] at h
  exact h

theorem minimbt_floor_intCast {i : Int} (hi : IsInt32 i) :
    minimbt_floor (Double.fin (i : ℚ)) = Outcome.ret i := by
  have h := minimbt_floor_in_range (q := (i : ℚ)) (by rw [Int.floor_intCast]; exact hi)
  rw [Int.floor_intCast] at h
  exact h

/-- C12: for every 32-bit signed integer `i`, `minimbt_float_of_int i` is the `double` of
value exactly `i` (a value the type holds without rounding), and converting back is the
identity: `minimbt_int_of_float` and `minimbt_floor` applied to it both return `i`. -/
theorem minimbt_float_of_int_roundtrip (i : Int) (hi : IsInt32 i) :
    minimbt_float_of_int i = Double.fin (i : ℚ)
      ∧ IsBinary64 (i : ℚ)
      ∧ minimbt_int_of_float (minimbt_float_of_int i) = Outcome.ret i
      ∧ minimbt_floor (minimbt_float_of_int i) = Outcome.ret i :=
  ⟨rfl, isBinary64_of_isInt32 hi, minimbt_int_of_float_intCast hi, minimbt_floor_intCast hi⟩

/-- Witness for C12 at the two ends of the range, `-2^31` and `2^31 - 1`, where the clamp to
`0` does not fire -/
theorem minimbt_float_of_int_roundtrip_witness :
    IsInt32 (-2147483648) ∧ IsInt32 2147483647
      ∧ minimbt_int_of_float (minimbt_float_of_int (-2147483648)) = Outcome.ret (-2147483648)
      ∧ minimbt_floor (minimbt_float_of_int (-2147483648)) = Outcome.ret (-2147483648)
      ∧ minimbt_int_of_float (minimbt_float_of_int 2147483647) = Outcome.ret 2147483647
      ∧ minimbt_floor (minimbt_float_of_int 2147483647) = Outcome.ret 2147483647 :=
  ⟨by decide, by decide,
    (minimbt_float_of_int_roundtrip (-2147483648) (by decide)).2.2.1,
    (minimbt_float_of_int_roundtrip (-2147483648) (by decide)).2.2.2,
    (minimbt_float_of_int_roundtrip 2147483647 (by decide)).2.2.1,
    (minimbt_float_of_int_roundtrip 2147483647 (by decide)).2.2.2⟩

/-! ## Compatibility functions and standard output: theorems -/

/-- C13: for each of the fifteen pairs declared in `lib.h`, the legacy entry point
`mincaml_X` gives, on every input, the same result as `minimbt_X`: the same returned value,
the same way of ending, the same requests to the allocator and the same bytes on standard
output. -/
theorem mincaml_eq_minimbt :
    (∀ (i : Int) (out : List Nat), mincaml_print_int i out = minimbt_print_int i out)
      ∧ (∀ out : List Nat, mincaml_print_endline out = minimbt_print_endline out)
      ∧ (∀ f : Double, mincaml_int_of_float f = minimbt_int_of_float f)
      ∧ (∀ i : Int, mincaml_float_of_int i = minimbt_float_of_int i)
      ∧ (∀ f : Double, mincaml_truncate f = minimbt_truncate f)
      ∧ (∀ f : Double, mincaml_floor f = minimbt_floor f)
      ∧ (∀ f : Double, mincaml_abs_float f = minimbt_abs_float f)
      ∧ (∀ (L : Libm) (f : Double), mincaml_sqrt L f = minimbt_sqrt L f)
      ∧ (∀ (L : Libm) (f : Double), mincaml_sin L f = minimbt_sin L f)
      ∧ (∀ (L : Libm) (f : Double), mincaml_cos L f = minimbt_cos L f)
      ∧ (∀ (L : Libm) (f : Double), mincaml_atan L f = minimbt_atan L f)
      ∧ (∀ (P : Platform) (A : Nat → Option Nat) (sz : Nat),
          mincaml_malloc P A sz = minimbt_malloc P A sz)
      ∧ (∀ (P : Platform) (A : Nat → Option Nat) (fuel n : Nat) (v : Int),
          mincaml_create_array P A fuel n v = minimbt_create_array P A fuel n v)
      ∧ (∀ (P : Platform) (A : Nat → Option Nat) (fuel n : Nat) (init : Nat),
          mincaml_create_ptr_array P A fuel n init = minimbt_create_ptr_array P A fuel n init)
      ∧ (∀ (P : Platform) (A : Nat → Option Nat) (fuel n : Nat) (v : Double),
          mincaml_create_float_array P A fuel n v = minimbt_create_float_array P A fuel n v) :=
  ⟨fun _ _ => rfl, fun _ => rfl, fun _ => rfl, fun _ => rfl, fun _ => rfl, fun _ => rfl,
    fun _ => rfl, fun _ _ => rfl, fun _ _ => rfl, fun _ _ => rfl, fun _ _ => rfl,
    fun _ _ _ => rfl, fun _ _ _ _ _ => rfl, fun _ _ _ _ _ => rfl, fun _ _ _ _ _ => rfl⟩

theorem char_of_int32_byte (char_signed : Bool) {ch : Int} (h0 : 0 ≤ ch) (h1 : ch ≤ 255) :
    char_of_int32 char_signed ch % 256 = ch := by
  unfold char_of_int32
  cases char_signed
  · simp only [Bool.false_eq_true, if_false]
    omega
  · simp only [if_true]
    omega

/-- C14: for every 32-bit signed `ch`, whatever the signedness of `char`,
`minimbt_print_char ch` appends exactly one byte to standard output and changes nothing
else: the byte of value `ch` when `0 ≤ ch ≤ 255`, and the byte `?` (63, `0x3F`) otherwise. -/
theorem minimbt_print_char_spec (char_signed : Bool) (ch : Int) (_hch : IsInt32 ch)
    (out : List Nat) :
    (0 ≤ ch ∧ ch ≤ 255 → minimbt_print_char char_signed ch out = out ++ [ch.toNat])
      ∧ (¬ (0 ≤ ch ∧ ch ≤ 255) → minimbt_print_char char_signed ch out = out ++ [63])
      ∧ Char.toNat '?' = 63
      ∧ (∃ byte, byte < 256 ∧ minimbt_print_char char_signed ch out = out ++ [byte]) := by
  have hin : 0 ≤ ch ∧ ch ≤ 255 →
      minimbt_print_char char_signed ch out = out ++ [ch.toNat] := by
    rintro ⟨h0, h1⟩
    have hg : ch ≥ 0 ∧ ch ≤ 255 := ⟨h0, h1⟩
    simp only [minimbt_print_char, Bool.and_eq_true, decide_eq_true_eq, hg, and_self, if_true,
      fflush, putchar, char_of_int32_byte char_signed h0 h1]
  have hout : ¬ (0 ≤ ch ∧ ch ≤ 255) →
      minimbt_print_char char_signed ch out = out ++ [63] := by
    intro hn
    have hg : ¬ (ch ≥ 0 ∧ ch ≤ 255) := hn
    simp only [minimbt_print_char, Bool.and_eq_true, decide_eq_true_eq, hg, if_false,
      fflush, putchar]
    rfl
  refine ⟨hin, hout, by decide, ?_⟩
  by_cases h : 0 ≤ ch ∧ ch ≤ 255
  · exact ⟨ch.toNat, by omega, hin h⟩
  · exact ⟨63, by decide, hout h⟩

/-- Witness for C14: `A` (65) and `255` are written as they are, `256` and `-1` as `?` -/
theorem minimbt_print_char_spec_witness :
    IsInt32 65 ∧ minimbt_print_char false 65 [10] = [10, 65]
      ∧ minimbt_print_char true 255 [10] = [10, 255]
      ∧ minimbt_print_char false 256 [10] = [10, 63]
      ∧ minimbt_print_char true (-1) [10] = [10, 63] :=
  ⟨by decide,
    (minimbt_print_char_spec false 65 (by decide) [10]).1 (by decide),
    (minimbt_print_char_spec true 255 (by decide) [10]).1 (by decide),
    (minimbt_print_char_spec false 256 (by decide) [10]).2.1 (by decide),
    (minimbt_print_char_spec true (-1) (by decide) [10]).2.1 (by decide)⟩

/-! ## Diagnostics and the two variants of checked arithmetic: theorems -/

theorem exit_of_ret_or_exit {o : Outcome Int} {x : Int} {d : String} {P : Prop}
    (hr : P → o = Outcome.ret x) (he : ¬ P → o = Outcome.exit EXIT_FAILURE d)
    (s' : Nat) (d' : String) (h : o = Outcome.exit s' d') : s' = EXIT_FAILURE ∧ d' = d := by
  by_cases hp : P
  · rw [hr hp] at h
    cases h
  · rw [he hp] at h
    cases h
    exact ⟨rfl, rfl⟩

theorem minimbt_checked_div_exit_cases (a b : Int) (ha : IsInt32 a) (s : Nat) (d : String)
    (h : minimbt_checked_div a b = Outcome.exit s d) :
    s = EXIT_FAILURE
      ∧ ((b = 0 ∧ d = "Divide by zero (" ++ fmt_d a ++ " / " ++ fmt_d b ++ ")\n")
        ∨ (a = INT32_MIN ∧ b = -1
            ∧ d = "Overflow dividing " ++ fmt_d a ++ " by " ++ fmt_d b ++ "\n")) := by
  by_cases hb : b = 0
  · subst hb
    rw [minimbt_checked_div_exit_zero] at h
    cases h
    exact ⟨rfl, Or.inl ⟨rfl, rfl⟩⟩
  · by_cases hov : a = INT32_MIN ∧ b = -1
    · obtain ⟨e1, e2⟩ := hov
      subst e1
      subst e2
      rw [minimbt_checked_div_exit_overflow] at h
      cases h
      exact ⟨rfl, Or.inr ⟨rfl, rfl, rfl⟩⟩
    · rw [minimbt_checked_div_ret ha hb hov] at h
      cases h

/-- C15: for 32-bit signed `a` and `b`, whenever a checked operation (either variant of add,
sub, mul, or div) ends the process, the status is `EXIT_FAILURE`, which is not zero, and the
diagnostic is the text naming the operation with the decimal rendering of `a` and then of
`b`: `Overflow adding a and b`, `Overflow subtracting a and b`, `Overflow multiplying a and b`,
`Divide by zero (a / b)` when `b = 0`, and `Overflow dividing a by b` otherwise, each followed
by a newline. -/
theorem checked_fault_diagnostics (a b : Int) (ha : IsInt32 a) (hb : IsInt32 b) :
    EXIT_FAILURE ≠ 0
      ∧ (∀ s d, minimbt_checked_add a b = Outcome.exit s d →
          s = EXIT_FAILURE ∧ d = "Overflow adding " ++ fmt_d a ++ " and " ++ fmt_d b ++ "\n")
      ∧ (∀ s d, minimbt_checked_add_fallback a b = Outcome.exit s d →
          s = EXIT_FAILURE ∧ d = "Overflow adding " ++ fmt_d a ++ " and " ++ fmt_d b ++ "\n")
      ∧ (∀ s d, minimbt_checked_sub a b = Outcome.exit s d →
          s = EXIT_FAILURE
            ∧ d = "Overflow subtracting " ++ fmt_d a ++ " and " ++ fmt_d b ++ "\n")
      ∧ (∀ s d, minimbt_checked_sub_fallback a b = Outcome.exit s d →
          s = EXIT_FAILURE
            ∧ d = "Overflow subtracting " ++ fmt_d a ++ " and " ++ fmt_d b ++ "\n")
      ∧ (∀ s d, minimbt_checked_mul a b = Outcome.exit s d →
          s = EXIT_FAILURE
            ∧ d = "Overflow multiplying " ++ fmt_d a ++ " and " ++ fmt_d b ++ "\n")
      ∧ (∀ s d, minimbt_checked_mul_fallback a b = Outcome.exit s d →
          s = EXIT_FAILURE
            ∧ d = "Overflow multiplying " ++ fmt_d a ++ " and " ++ fmt_d b ++ "\n")
      ∧ (∀ s d, minimbt_checked_div a b = Outcome.exit s d →
          s = EXIT_FAILURE
            ∧ ((b = 0 ∧ d = "Divide by zero (" ++ fmt_d a ++ " / " ++ fmt_d b ++ ")\n")
              ∨ (a = INT32_MIN ∧ b = -1
                  ∧ d = "Overflow dividing " ++ fmt_d a ++ " by " ++ fmt_d b ++ "\n"))) :=
  ⟨by decide,
    exit_of_ret_or_exit minimbt_checked_add_ret minimbt_checked_add_exit,
    exit_of_ret_or_exit (minimbt_checked_add_fallback_ret ha hb)
      (minimbt_checked_add_fallback_exit ha hb),
    exit_of_ret_or_exit minimbt_checked_sub_ret minimbt_checked_sub_exit,
    exit_of_ret_or_exit (minimbt_checked_sub_fallback_ret ha hb)
      (minimbt_checked_sub_fallback_exit ha hb),
    exit_of_ret_or_exit minimbt_checked_mul_ret minimbt_checked_mul_exit,
    exit_of_ret_or_exit (minimbt_checked_mul_fallback_ret ha hb)
      (minimbt_checked_mul_fallback_exit ha hb),
    minimbt_checked_div_exit_cases a b ha⟩

/-- Witness for C15: the diagnostics of `2147483647 + 1` and of `-7 / 0`, written out -/
theorem checked_fault_diagnostics_witness :
    IsInt32 2147483647 ∧ IsInt32 1 ∧ IsInt32 (-7) ∧ IsInt32 0
      ∧ minimbt_checked_add 2147483647 1
          = Outcome.exit EXIT_FAILURE "Overflow adding 2147483647 and 1\n"
      ∧ (∀ s d, minimbt_checked_add 2147483647 1 = Outcome.exit s d →
          s = EXIT_FAILURE ∧ d = "Overflow adding 2147483647 and 1\n")
      ∧ minimbt_checked_div (-7) 0 = Outcome.exit EXIT_FAILURE "Divide by zero (-7 / 0)\n"
      ∧ (∀ s d, minimbt_checked_div (-7) 0 = Outcome.exit s d →
          s = EXIT_FAILURE
            ∧ (((0 : Int) = 0 ∧ d = "Divide by zero (-7 / 0)\n")
              ∨ ((-7 : Int) = INT32_MIN ∧ (0 : Int) = -1
                  ∧ d = "Overflow dividing -7 by 0\n"))) :=
  ⟨by decide, by decide, by decide, by decide, by decide,
    (checked_fault_diagnostics 2147483647 1 (by decide) (by decide)).2.1,
    by decide,
    (checked_fault_diagnostics (-7) 0 (by decide) (by decide)).2.2.2.2.2.2.2⟩

theorem minimbt_checked_mul_fallback_by_branch (a b : Int) :
    minimbt_checked_mul_fallback a b
      = if mul_fallback_branch a b = 0 then Outcome.ret (wrap32 (wrap64 (a * b)))
        else Outcome.exit EXIT_FAILURE
          ("Overflow multiplying " ++ fmt_d a ++ " and " ++ fmt_d b ++ "\n") := by
  unfold minimbt_checked_mul_fallback mul_fallback_branch mul_fallback_guard1
    mul_fallback_guard2
  dsimp only
  split_ifs <;> simp_all

theorem mul_fallback_guard2_imp_guard1 {a b : Int} (ha : IsInt32 a) (hb : IsInt32 b)
    (h : mul_fallback_guard2 a b = true) : mul_fallback_guard1 a b = true := by
  obtain ⟨m1, m2⟩ := mul_bounds_of_isInt32 ha hb
  unfold mul_fallback_guard2 at h
  unfold mul_fallback_guard1
  dsimp only
  rw [wrap64_of_bounds (by omega) (by omega)]
  simp only [Bool.or_eq_true, Bool.and_eq_true, decide_eq_true_eq] at h ⊢
  unfold INT32_MIN at h
  unfold INT32_MAX
  rcases h with ⟨e1, e2⟩ | ⟨e1, e2⟩ <;> subst e1 <;> subst e2 <;> left <;> decide

/-- C16: for 32-bit signed `a` and `b`, the fallback versions of `minimbt_checked_add`,
`minimbt_checked_sub` and `minimbt_checked_mul` have the same outcome as the versions built
on the overflow builtins (the same returned value, or the same exit status and diagnostic);
and the second guard of the fallback multiply is never the one that ends the call: whenever
it holds, the first guard holds already. -/
theorem fallback_eq_builtin (a b : Int) (ha : IsInt32 a) (hb : IsInt32 b) :
    minimbt_checked_add_fallback a b = minimbt_checked_add a b
      ∧ minimbt_checked_sub_fallback a b = minimbt_checked_sub a b
      ∧ minimbt_checked_mul_fallback a b = minimbt_checked_mul a b
      ∧ mul_fallback_branch a b ≠ 2
      ∧ (mul_fallback_guard2 a b = true → mul_fallback_guard1 a b = true) := by
  refine ⟨?_, ?_, ?_, ?_, mul_fallback_guard2_imp_guard1 ha hb⟩
  · by_cases h : IsInt32 (a + b)
    · rw [minimbt_checked_add_fallback_ret ha hb h, minimbt_checked_add_ret h]
    · rw [minimbt_checked_add_fallback_exit ha hb h, minimbt_checked_add_exit h]
  · by_cases h : IsInt32 (a - b)
    · rw [minimbt_checked_sub_fallback_ret ha hb h, minimbt_checked_sub_ret h]
    · rw [minimbt_checked_sub_fallback_exit ha hb h, minimbt_checked_sub_exit h]
  · by_cases h : IsInt32 (a * b)
    · rw [minimbt_checked_mul_fallback_ret ha hb h, minimbt_checked_mul_ret h]
    · rw [minimbt_checked_mul_fallback_exit ha hb h, minimbt_checked_mul_exit h]
  · unfold mul_fallback_branch
    by_cases g1 : mul_fallback_guard1 a b = true
    · rw [if_pos g1]
      decide
    · rw [if_neg g1]
      by_cases g2 : mul_fallback_guard2 a b = true
      · exact absurd (mul_fallback_guard2_imp_guard1 ha hb g2) g1
      · rw [if_neg g2]
        decide

/-- Witness for C16 at `a = -2147483648`, `b = -1`, the pair of the second guard: both
variants end the same way and it is the first guard that fires -/
theorem fallback_eq_builtin_witness :
    IsInt32 (-2147483648) ∧ IsInt32 (-1)
      ∧ minimbt_checked_mul_fallback (-2147483648) (-1) = minimbt_checked_mul (-2147483648) (-1)
      ∧ mul_fallback_guard2 (-2147483648) (-1) = true
      ∧ mul_fallback_branch (-2147483648) (-1) ≠ 2 :=
  ⟨by decide, by decide,
    (fallback_eq_builtin (-2147483648) (-1) (by decide) (by decide)).2.2.1,
    by decide,
    (fallback_eq_builtin (-2147483648) (-1) (by decide) (by decide)).2.2.2.1⟩

/-! ## The fill loop: theorems -/

theorem fill_loop_log_replicate {α : Type} (v : α) (n : Nat) (hn : n < 4294967296)
    (addr size : Nat) :
    ∀ (fuel i : Nat) (log : List Nat), i ≤ n → n - i < fuel →
      fill_loop_log fuel n v i
          (some ⟨addr, size, List.replicate i (some v) ++ List.replicate (n - i) none⟩) log
        = Outcome.ret (some ⟨addr, size, List.replicate n (some v)⟩,
            log ++ List.range' i (n - i)) := by
  intro fuel
  induction fuel with
  | zero => intro i _ _ h; omega
  | succ fuel ih =>
    intro i log hi hf
    unfold fill_loop_log
    by_cases hlt : i < n
    · rw [if_pos hlt]
      have hlen : i < (List.replicate i (some v) ++ List.replicate (n - i) none).length := by
        simp only [List.length_append, List.length_replicate]
        omega
      have hmod : (i + 1) % 4294967296 = i + 1 := Nat.mod_eq_of_lt (by omega)
      have hsplit : n - i = (n - (i + 1)) + 1 := by omega
      have hset : (List.replicate i (some v) ++ List.replicate (n - i) none).set i (some v)
          = List.replicate (i + 1) (some v) ++ List.replicate (n - (i + 1)) none := by
        rw [List.set_append_right _ _ (by simp)]
        rw [hsplit, List.replicate_succ, List.length_replicate, Nat.sub_self, List.set_cons_zero,
          List.replicate_succ', List.append_assoc]
        rfl
      have hlog : log ++ [i] ++ List.range' (i + 1) (n - (i + 1)) = log ++ List.range' i (n - i) := by
        rw [hsplit, List.range'_succ, List.append_assoc]
        rfl
      unfold store
      simp only [hlen, if_true, Outcome.bind, hmod, hset]
      rw [ih (i + 1) (log ++ [i]) (by omega) (by omega), hlog]
    · have hin : i = n := by omega
      subst hin
      simp

theorem fill_loop_log_outOfFuel {α : Type} (v : α) (n : Nat) (hn : n < 4294967296)
    (addr size : Nat) :
    ∀ (fuel i : Nat) (log : List Nat), i ≤ n → fuel ≤ n - i →
      fill_loop_log fuel n v i
          (some ⟨addr, size, List.replicate i (some v) ++ List.replicate (n - i) none⟩) log
        = Outcome.outOfFuel := by
  intro fuel
  induction fuel with
  | zero =>
    intro i log _ _
    unfold fill_loop_log
    rfl
  | succ fuel ih =>
    intro i log hi hf
    unfold fill_loop_log
    have hlt : i < n := by omega
    rw [if_pos hlt]
    have hlen : i < (List.replicate i (some v) ++ List.replicate (n - i) none).length := by
      simp only [List.length_append, List.length_replicate]
      omega
    have hmod : (i + 1) % 4294967296 = i + 1 := Nat.mod_eq_of_lt (by omega)
    have hsplit : n - i = (n - (i + 1)) + 1 := by omega
    have hset : (List.replicate i (some v) ++ List.replicate (n - i) none).set i (some v)
        = List.replicate (i + 1) (some v) ++ List.replicate (n - (i + 1)) none := by
      rw [List.set_append_right _ _ (by simp)]
      rw [hsplit, List.replicate_succ, List.length_replicate, Nat.sub_self, List.set_cons_zero,
        List.replicate_succ', List.append_assoc]
      rfl
    unfold store
    simp only [hlen, if_true, Outcome.bind, hmod, hset]
    exact ih (i + 1) (log ++ [i]) (by omega) (by omega)

theorem fill_loop_eq_log {α : Type} (v : α) (n : Nat) :
    ∀ (fuel i : Nat) (arr : Ptr α) (log : List Nat),
      fill_loop fuel n v i arr
        = (fill_loop_log fuel n v i arr log).bind fun r => Outcome.ret r.1 := by
  intro fuel
  induction fuel with
  | zero =>
    intro i arr log
    unfold fill_loop fill_loop_log
    rfl
  | succ fuel ih =>
    intro i arr log
    unfold fill_loop fill_loop_log
    by_cases hlt : i < n
    · rw [if_pos hlt, if_pos hlt]
      cases hs : store arr i v with
      | ret arr2 =>
        simp only [Outcome.bind]
        exact ih _ arr2 (log ++ [i])
      | exit s d => rfl
      | undefined => rfl
      | outOfFuel => rfl
    · rw [if_neg hlt, if_neg hlt]
      rfl

theorem fill_loop_log_of_guard {α : Type} (P : Platform) (element_size : Nat)
    (A : Nat → Option Nat) (n total addr : Nat) (v : α) (he : 0 < element_size)
    (hn32 : n < 4294967296)
    (hg : safe_multiply_size P n element_size = Outcome.ret total)
    (hA : A total = some addr) (arr : Ptr α)
    (harr : (sys_malloc A element_size total).outcome = Outcome.ret arr) :
    (∀ fuel, n < fuel →
        fill_loop_log fuel n v 0 arr []
          = Outcome.ret (some ⟨addr, total, List.replicate n (some v)⟩, List.range n))
      ∧ (∀ fuel, fuel ≤ n → fill_loop_log fuel n v 0 arr [] = Outcome.outOfFuel)
      ∧ (∀ i ∈ List.range n,
          (i + 1) % 4294967296 = i + 1 ∧ (i + 1) * element_size ≤ total) := by
  obtain ⟨_, rfl⟩ := (safe_multiply_size_ret_iff P _ _ _).mp hg
  simp only [sys_malloc, hA, Option.map_some', Nat.mul_div_cancel _ he] at harr
  cases harr
  refine ⟨?_, ?_, ?_⟩
  · intro fuel hf
    have h := fill_loop_log_replicate v n hn32 addr (n * element_size) fuel 0 [] (Nat.zero_le n)
      (by omega)
    simp only [List.replicate_zero, List.nil_append, Nat.sub_zero] at h
    rw [h, List.range_eq_range']
  · intro fuel hf
    have h := fill_loop_log_outOfFuel v n hn32 addr (n * element_size) fuel 0 [] (Nat.zero_le n)
      (by omega)
    simp only [List.replicate_zero, List.nil_append, Nat.sub_zero] at h
    exact h
  · intro i hi
    rw [List.mem_range] at hi
    exact ⟨Nat.mod_eq_of_lt (by omega), Nat.mul_le_mul_right element_size hi⟩

/-- C17: for each typed constructor and every `n < 2^32` (so also `n = 2^32 - 1`) for which
the size guard passes with `total` bytes and the allocator grants the block `arr`, the fill
loop run on `arr` ends after exactly `n` executions of its body (a budget of `n + 1` loop
tests is enough, a budget of `n` is not), the counter takes the values `0, 1, ..., n - 1` in
this order without wrapping, and every slot index `i` it writes satisfies
`(i + 1) * element_size ≤ total`; the recorded loop is the loop of the constructor. -/
theorem fill_loop_in_bounds (P : Platform) (hP : P.WellFormed) (A : Nat → Option Nat)
    (n total addr : Nat) (hn32 : n < 4294967296) (hA : A total = some addr) :
    (safe_multiply_size P n P.sizeof_int32 = Outcome.ret total →
        ∀ (v : Int) (arr : Ptr Int),
          (sys_malloc A P.sizeof_int32 total).outcome = Outcome.ret arr →
          (∀ fuel, n < fuel →
              fill_loop_log fuel n v 0 arr []
                = Outcome.ret (some ⟨addr, total, List.replicate n (some v)⟩, List.range n))
            ∧ (∀ fuel, fuel ≤ n → fill_loop_log fuel n v 0 arr [] = Outcome.outOfFuel)
            ∧ (∀ i ∈ List.range n,
                (i + 1) % 4294967296 = i + 1 ∧ (i + 1) * P.sizeof_int32 ≤ total)
            ∧ (∀ fuel, fill_loop fuel n v 0 arr
                = (fill_loop_log fuel n v 0 arr []).bind fun r => Outcome.ret r.1))
      ∧ (safe_multiply_size P n P.sizeof_ptr = Outcome.ret total →
        ∀ (init : Nat) (arr : Ptr Nat),
          (sys_malloc A P.sizeof_ptr total).outcome = Outcome.ret arr →
          (∀ fuel, n < fuel →
              fill_loop_log fuel n init 0 arr []
                = Outcome.ret (some ⟨addr, total, List.replicate n (some init)⟩, List.range n))
            ∧ (∀ fuel, fuel ≤ n → fill_loop_log fuel n init 0 arr [] = Outcome.outOfFuel)
            ∧ (∀ i ∈ List.range n,
                (i + 1) % 4294967296 = i + 1 ∧ (i + 1) * P.sizeof_ptr ≤ total)
            ∧ (∀ fuel, fill_loop fuel n init 0 arr
                = (fill_loop_log fuel n init 0 arr []).bind fun r => Outcome.ret r.1))
      ∧ (safe_multiply_size P n P.sizeof_double = Outcome.ret total →
        ∀ (v : Double) (arr : Ptr Double),
          (sys_malloc A P.sizeof_double total).outcome = Outcome.ret arr →
          (∀ fuel, n < fuel →
              fill_loop_log fuel n v 0 arr []
                = Outcome.ret (some ⟨addr, total, List.replicate n (some v)⟩, List.range n))
            ∧ (∀ fuel, fuel ≤ n → fill_loop_log fuel n v 0 arr [] = Outcome.outOfFuel)
            ∧ (∀ i ∈ List.range n,
                (i + 1) % 4294967296 = i + 1 ∧ (i + 1) * P.sizeof_double ≤ total)
            ∧ (∀ fuel, fill_loop fuel n v 0 arr
                = (fill_loop_log fuel n v 0 arr []).bind fun r => Outcome.ret r.1)) := by
  obtain ⟨h1, h2, h3⟩ := hP
  refine ⟨?_, ?_, ?_⟩
  · intro hg v arr harr
    obtain ⟨a1, a2, a3⟩ := fill_loop_log_of_guard P _ A n total addr v h1 hn32 hg hA arr harr
    exact ⟨a1, a2, a3, fun fuel => fill_loop_eq_log v n fuel 0 arr []⟩
  · intro hg v arr harr
    obtain ⟨a1, a2, a3⟩ := fill_loop_log_of_guard P _ A n total addr v h2 hn32 hg hA arr harr
    exact ⟨a1, a2, a3, fun fuel => fill_loop_eq_log v n fuel 0 arr []⟩
  · intro hg v arr harr
    obtain ⟨a1, a2, a3⟩ := fill_loop_log_of_guard P _ A n total addr v h3 hn32 hg hA arr harr
    exact ⟨a1, a2, a3, fun fuel => fill_loop_eq_log v n fuel 0 arr []⟩

/-- Witness for C17 on `rv64`: three `int32_t` slots, run and read off; and the largest count
`n = 2^32 - 1`, for which the guard passes with `17179869180` bytes and the last index
written, `4294967294`, lies inside the block -/
theorem fill_loop_in_bounds_witness :
    rv64.WellFormed
      ∧ safe_multiply_size rv64 3 rv64.sizeof_int32 = Outcome.ret 12
      ∧ fill_loop_log 4 3 (7 : Int) 0 (some ⟨4096, 12, [none, none, none]⟩) []
          = Outcome.ret (some ⟨4096, 12, [some 7, some 7, some 7]⟩, [0, 1, 2])
      ∧ fill_loop_log 3 3 (7 : Int) 0 (some ⟨4096, 12, [none, none, none]⟩) []
          = Outcome.outOfFuel
      ∧ safe_multiply_size rv64 4294967295 rv64.sizeof_int32 = Outcome.ret 17179869180
      ∧ ((4294967294 + 1) % 4294967296 = 4294967294 + 1
          ∧ (4294967294 + 1) * rv64.sizeof_int32 ≤ 17179869180) :=
  ⟨by decide, by decide,
    ((fill_loop_in_bounds rv64 (by decide) (fun _ => some 4096) 3 12 4096 (by decide) rfl).1
      (by decide) 7 _ rfl).1 4 (by decide),
    ((fill_loop_in_bounds rv64 (by decide) (fun _ => some 4096) 3 12 4096 (by decide) rfl).1
      (by decide) 7 _ rfl).2.1 3 (by decide),
    by decide,
    ((fill_loop_in_bounds rv64 (by decide) (fun _ => some 4096) 4294967295 17179869180 4096
      (by decide) rfl).1 (by decide) 7 _ rfl).2.2.1 4294967294
      (List.mem_range.mpr (by decide))⟩

/-- C18: on a platform with a 64-bit `size_t` and element sizes 4 (`int32_t`), 8 (`double`)
and 8 (pointer), for every unsigned 32-bit `n` the size guard passes for the three typed
constructors: `safe_multiply_size` returns `n * element_size`, which is below `2^35`, and
does not end the process. -/
theorem size_guard_passes_on_64_bit (P : Platform) (hbits : P.size_bits = 64)
    (h4 : P.sizeof_int32 = 4) (h8 : P.sizeof_double = 8) (hp : P.sizeof_ptr = 8)
    (n : Nat) (hn : n < 4294967296) :
    P.SIZE_MAX = 18446744073709551615
      ∧ safe_multiply_size P n P.sizeof_int32 = Outcome.ret (n * 4)
      ∧ n * 4 < 34359738368
      ∧ safe_multiply_size P n P.sizeof_double = Outcome.ret (n * 8)
      ∧ safe_multiply_size P n P.sizeof_ptr = Outcome.ret (n * 8)
      ∧ n * 8 < 34359738368 := by
  have hmax : P.SIZE_MAX = 18446744073709551615 := by
    unfold Platform.SIZE_MAX
    rw [hbits]
    rfl
  refine ⟨hmax, ?_, by omega, ?_, ?_, by omega⟩
  · rw [h4]
    exact safe_multiply_size_ret P (by rw [hmax]; omega)
  · rw [h8]
    exact safe_multiply_size_ret P (by rw [hmax]; omega)
  · rw [hp]
    exact safe_multiply_size_ret P (by rw [hmax]; omega)

/-- Witness for C18 on `rv64` at the largest count `n = 2^32 - 1` -/
theorem size_guard_passes_on_64_bit_witness :
    rv64.size_bits = 64
      ∧ safe_multiply_size rv64 4294967295 rv64.sizeof_int32 = Outcome.ret (4294967295 * 4)
      ∧ safe_multiply_size rv64 4294967295 rv64.sizeof_double = Outcome.ret (4294967295 * 8)
      ∧ safe_multiply_size rv64 4294967295 rv64.sizeof_ptr = Outcome.ret (4294967295 * 8)
      ∧ 4294967295 * 8 < 34359738368 :=
  ⟨rfl,
    (size_guard_passes_on_64_bit rv64 rfl rfl rfl rfl 4294967295 (by decide)).2.1,
    (size_guard_passes_on_64_bit rv64 rfl rfl rfl rfl 4294967295 (by decide)).2.2.2.1,
    (size_guard_passes_on_64_bit rv64 rfl rfl rfl rfl 4294967295 (by decide)).2.2.2.2.1,
    (size_guard_passes_on_64_bit rv64 rfl rfl rfl rfl 4294967295 (by decide)).2.2.2.2.2⟩

/-! ## No overflow inside the fallback arithmetic: theorems -/

theorem int_sub_ret {x y : Int} (h : IsInt32 (x - y)) : int_sub x y = Outcome.ret (x - y) := by
  unfold int_sub
  rw [if_pos h]

theorem int_add_ret {x y : Int} (h : IsInt32 (x + y)) : int_add x y = Outcome.ret (x + y) := by
  unfold int_add
  rw [if_pos h]

theorem guard_operands_in_range {b : Int} (hb : IsInt32 b) :
    (0 < b → IsInt32 (INT32_MAX - b) ∧ IsInt32 (INT32_MIN + b))
      ∧ (b < 0 → IsInt32 (INT32_MIN - b) ∧ IsInt32 (INT32_MAX + b)) := by
  unfold IsInt32 INT32_MIN INT32_MAX at *
  constructor <;> intro h <;> constructor <;> constructor <;> omega

theorem minimbt_checked_add_fallback_observed_eq {a b : Int} (ha : IsInt32 a)
    (hb : IsInt32 b) :
    minimbt_checked_add_fallback_observed a b = minimbt_checked_add_fallback a b := by
  obtain ⟨hpos, hneg⟩ := guard_operands_in_range hb
  unfold minimbt_checked_add_fallback_observed minimbt_checked_add_fallback c_or c_and
  rcases lt_trichotomy b 0 with h | h | h
  · have np : ¬ (b > 0) := by omega
    have e := wrap32_of_isInt32 (hneg h).1
    by_cases hs : IsInt32 (a + b)
    · simp [np, h, int_sub_ret (hneg h).1, e, Outcome.bind, int_add_ret hs,
        wrap32_of_isInt32 hs]
    · have c : a < INT32_MIN - b := by
        unfold IsInt32 INT32_MIN INT32_MAX at *
        omega
      simp [np, h, int_sub_ret (hneg h).1, e, Outcome.bind, c]
  · subst h
    have hs : IsInt32 (a + 0) := by simpa using ha
    simp [Outcome.bind, int_add_ret hs, wrap32_of_isInt32 ha]
  · have nn : ¬ (b < 0) := by omega
    have e := wrap32_of_isInt32 (hpos h).1
    by_cases hs : IsInt32 (a + b)
    · have c : ¬ (INT32_MAX - b < a) := by
        unfold IsInt32 INT32_MIN INT32_MAX at *
        omega
      simp [nn, h, int_sub_ret (hpos h).1, e, Outcome.bind, int_add_ret hs,
        wrap32_of_isInt32 hs, c]
    · have c : INT32_MAX - b < a := by
        unfold IsInt32 INT32_MIN INT32_MAX at *
        omega
      simp [h, int_sub_ret (hpos h).1, e, Outcome.bind, c]

theorem minimbt_checked_sub_fallback_observed_eq {a b : Int} (ha : IsInt32 a)
    (hb : IsInt32 b) :
    minimbt_checked_sub_fallback_observed a b = minimbt_checked_sub_fallback a b := by
  obtain ⟨hpos, hneg⟩ := guard_operands_in_range hb
  unfold minimbt_checked_sub_fallback_observed minimbt_checked_sub_fallback c_or c_and
  rcases lt_trichotomy b 0 with h | h | h
  · have np : ¬ (b > 0) := by omega
    have e := wrap32_of_isInt32 (hneg h).2
    by_cases hs : IsInt32 (a - b)
    · have c : ¬ (INT32_MAX + b < a) := by
        unfold IsInt32 INT32_MIN INT32_MAX at *
        omega
      simp [np, h, int_add_ret (hneg h).2, e, Outcome.bind, int_sub_ret hs,
        wrap32_of_isInt32 hs, c]
    · have c : INT32_MAX + b < a := by
        unfold IsInt32 INT32_MIN INT32_MAX at *
        omega
      simp [np, h, int_add_ret (hneg h).2, e, Outcome.bind, c]
  · subst h
    have hs : IsInt32 (a - 0) := by simpa using ha
    simp [Outcome.bind, int_sub_ret hs, wrap32_of_isInt32 ha]
  · have nn : ¬ (b < 0) := by omega
    have e := wrap32_of_isInt32 (hpos h).2
    by_cases hs : IsInt32 (a - b)
    · have c : ¬ (a < INT32_MIN + b) := by
        unfold IsInt32 INT32_MIN INT32_MAX at *
        omega
      simp [nn, h, int_add_ret (hpos h).2, e, Outcome.bind, int_sub_ret hs,
        wrap32_of_isInt32 hs, c]
    · have c : a < INT32_MIN + b := by
        unfold IsInt32 INT32_MIN INT32_MAX at *
        omega
      simp [h, int_add_ret (hpos h).2, e, Outcome.bind, c]

theorem llong_mul_ret {a b : Int} (ha : IsInt32 a) (hb : IsInt32 b) :
    llong_mul a b = Outcome.ret (a * b) ∧ IsInt64 (a * b) := by
  obtain ⟨m1, m2⟩ := mul_bounds_of_isInt32 ha hb
  have h : IsInt64 (a * b) := by
    unfold IsInt64
    constructor <;> omega
  unfold llong_mul
  rw [if_pos h]
  exact ⟨rfl, h⟩

theorem minimbt_checked_mul_fallback_observed_eq {a b : Int} (ha : IsInt32 a)
    (hb : IsInt32 b) :
    minimbt_checked_mul_fallback_observed a b = minimbt_checked_mul_fallback a b := by
  obtain ⟨m1, m2⟩ := mul_bounds_of_isInt32 ha hb
  unfold minimbt_checked_mul_fallback_observed
  rw [(llong_mul_ret ha hb).1]
  by_cases hs : IsInt32 (a * b)
  · rw [minimbt_checked_mul_fallback_ret ha hb hs]
    have h1 : ¬ (a * b > INT32_MAX ∨ a * b < INT32_MIN) := by
      unfold IsInt32 at hs; omega
    have h2 : ¬ ((a = INT32_MIN ∧ b = -1) ∨ (b = INT32_MIN ∧ a = -1)) := by
      unfold IsInt32 INT32_MIN INT32_MAX at hs
      unfold INT32_MIN
      rintro (⟨e1, e2⟩ | ⟨e1, e2⟩) <;> subst e1 <;> subst e2 <;> omega
    simp only [Outcome.bind, Bool.or_eq_true, Bool.and_eq_true, decide_eq_true_eq, h1, h2,
      if_false, int32_of_llong, hs, if_true]
  · rw [minimbt_checked_mul_fallback_exit ha hb hs]
    have h1 : a * b > INT32_MAX ∨ a * b < INT32_MIN := by
      unfold IsInt32 at hs; omega
    simp only [Outcome.bind, Bool.or_eq_true, decide_eq_true_eq, h1, if_true]

/-- C19: in the fallback checked arithmetic no intermediate expression overflows. For 32-bit
signed `a` and `b`, running each fallback function with every `int` operation, the
`long long` product and the narrowing conversion observed gives the outcome of the function
itself and never undefined behaviour; the guard operands `INT32_MAX - b`, `INT32_MIN + b`
(evaluated when `b > 0`) and `INT32_MIN - b`, `INT32_MAX + b` (evaluated when `b < 0`) are
32-bit signed integers, the product `a * b` is a 64-bit signed integer, and whenever a
function returns, the exact value of its final `a + b`, `a - b` or narrowed product is a
32-bit signed integer. -/
theorem fallback_no_intermediate_overflow (a b : Int) (ha : IsInt32 a) (hb : IsInt32 b) :
    (minimbt_checked_add_fallback_observed a b = minimbt_checked_add_fallback a b
        ∧ minimbt_checked_add_fallback_observed a b ≠ Outcome.undefined)
      ∧ (minimbt_checked_sub_fallback_observed a b = minimbt_checked_sub_fallback a b
        ∧ minimbt_checked_sub_fallback_observed a b ≠ Outcome.undefined)
      ∧ (minimbt_checked_mul_fallback_observed a b = minimbt_checked_mul_fallback a b
        ∧ minimbt_checked_mul_fallback_observed a b ≠ Outcome.undefined)
      ∧ (0 < b → int_sub INT32_MAX b = Outcome.ret (INT32_MAX - b)
          ∧ int_add INT32_MIN b = Outcome.ret (INT32_MIN + b))
      ∧ (b < 0 → int_sub INT32_MIN b = Outcome.ret (INT32_MIN - b)
          ∧ int_add INT32_MAX b = Outcome.ret (INT32_MAX + b))
      ∧ (llong_mul a b = Outcome.ret (a * b) ∧ IsInt64 (a * b))
      ∧ (∀ v, minimbt_checked_add_fallback a b = Outcome.ret v → IsInt32 (a + b))
      ∧ (∀ v, minimbt_checked_sub_fallback a b = Outcome.ret v → IsInt32 (a - b))
      ∧ (∀ v, minimbt_checked_mul_fallback a b = Outcome.ret v → IsInt32 (a * b)) := by
  obtain ⟨hpos, hneg⟩ := guard_operands_in_range hb
  have nu : ∀ {x y : Int} {o : Outcome Int} {d : String},
      (IsInt32 x → o = Outcome.ret y) → (¬ IsInt32 x → o = Outcome.exit EXIT_FAILURE d) →
      o ≠ Outcome.undefined := by
    intro x y o d hr he hu
    by_cases hx : IsInt32 x
    · rw [hr hx] at hu
      cases hu
    · rw [he hx] at hu
      cases hu
  have rr : ∀ {x : Int} {o : Outcome Int} {d : String},
      (¬ IsInt32 x → o = Outcome.exit EXIT_FAILURE d) → ∀ v, o = Outcome.ret v → IsInt32 x := by
    intro x o d he v hv
    by_contra hx
    rw [he hx] at hv
    cases hv
  refine ⟨⟨minimbt_checked_add_fallback_observed_eq ha hb, ?_⟩,
    ⟨minimbt_checked_sub_fallback_observed_eq ha hb, ?_⟩,
    ⟨minimbt_checked_mul_fallback_observed_eq ha hb, ?_⟩,
    fun h => ⟨int_sub_ret (hpos h).1, int_add_ret (hpos h).2⟩,
    fun h => ⟨int_sub_ret (hneg h).1, int_add_ret (hneg h).2⟩,
    llong_mul_ret ha hb,
    rr (minimbt_checked_add_fallback_exit ha hb),
    rr (minimbt_checked_sub_fallback_exit ha hb),
    rr (minimbt_checked_mul_fallback_exit ha hb)⟩
  · rw [minimbt_checked_add_fallback_observed_eq ha hb]
    exact nu (minimbt_checked_add_fallback_ret ha hb) (minimbt_checked_add_fallback_exit ha hb)
  · rw [minimbt_checked_sub_fallback_observed_eq ha hb]
    exact nu (minimbt_checked_sub_fallback_ret ha hb) (minimbt_checked_sub_fallback_exit ha hb)
  · rw [minimbt_checked_mul_fallback_observed_eq ha hb]
    exact nu (minimbt_checked_mul_fallback_ret ha hb) (minimbt_checked_mul_fallback_exit ha hb)

/-- Witness for C19 at `a = -2147483648`, `b = -2147483648`: the observed runs agree with the
fallback functions, and the guard operand `INT32_MIN - b` is `0` -/
theorem fallback_no_intermediate_overflow_witness :
    IsInt32 (-2147483648)
      ∧ minimbt_checked_add_fallback_observed (-2147483648) (-2147483648)
          = minimbt_checked_add_fallback (-2147483648) (-2147483648)
      ∧ minimbt_checked_sub_fallback_observed (-2147483648) (-2147483648) = Outcome.ret 0
      ∧ minimbt_checked_mul_fallback_observed (-2147483648) (-2147483648)
          ≠ Outcome.undefined
      ∧ int_sub INT32_MIN (-2147483648) = Outcome.ret (INT32_MIN - -2147483648) :=
  ⟨by decide,
    (fallback_no_intermediate_overflow (-2147483648) (-2147483648) (by decide)
      (by decide)).1.1,
    ((fallback_no_intermediate_overflow (-2147483648) (-2147483648) (by decide)
      (by decide)).2.1.1).trans (by decide),
    (fallback_no_intermediate_overflow (-2147483648) (-2147483648) (by decide)
      (by decide)).2.2.1.2,
    ((fallback_no_intermediate_overflow (-2147483648) (-2147483648) (by decide)
      (by decide)).2.2.2.2.1 (by decide)).1⟩

end MiniMBT
